import Mathlib

/-!
# MobiClip MO container: probe, header parser, packet demuxer, header builder

A shallow embedding of `libavformat/mo.h`, `libavformat/modec.c` and
`libavformat/moenc.c`.

* Bytes are `UInt8`; C integers are `Nat`/`Int` with explicit reduction modulo
  `2^16` / `2^32` where the source stores into `uint16_t` / `uint32_t`.
* The byte-stream layer (`avio_*`, `av_get_packet`), the stream descriptors and
  the error constants live outside the three source files; they are modelled
  here and each such definition says so.
* The `while` loop of `mo_read_header` is modelled with an iteration budget
  (`fuel`); `none` means the budget ran out before the loop left.
-/

namespace MO

/-! ## Tags and markers (mo.h) -/

/-- Modelled from the spec: the `MKTAG` macro (libavutil) is not among the source files.
It packs four characters with the first one in the least significant byte, the
four-character analogue of `FORMAT_MARKER`, so that the little-endian 32-bit write of the
builder emits the magic as the characters M, O, C, 5 in that order. -/
def MKTAG (a b c d : Nat) : Nat := a + b * 2 ^ 8 + c * 2 ^ 16 + d * 2 ^ 24

/-- The container magic, `MKTAG('M', 'O', 'C', '5')`. -/
def MO_TAG : Nat := MKTAG (Char.toNat 'M') (Char.toNat 'O') (Char.toNat 'C') (Char.toNat '5')

/-- The macro `FORMAT_MARKER(a,b) ((a) | ((b) << 8))`. -/
def FORMAT_MARKER (a b : Nat) : Nat := a ||| (b <<< 8)

def FORMAT_LENGTH : Nat := FORMAT_MARKER (Char.toNat 'T') (Char.toNat 'L')
def FORMAT_VIDEO : Nat := FORMAT_MARKER (Char.toNat 'V') (Char.toNat '2')
def FORMAT_RSA : Nat := FORMAT_MARKER (Char.toNat 'p') (Char.toNat 'c')
def FORMAT_UNKNOWN_AUDIO : Nat := FORMAT_MARKER (Char.toNat 'P') 0xc6
def FORMAT_FASTAUDIO : Nat := FORMAT_MARKER (Char.toNat 'A') (Char.toNat '2')
def FORMAT_FASTAUDIO_STEREO : Nat := FORMAT_MARKER (Char.toNat 'A') (Char.toNat '3')
def FORMAT_PCM : Nat := FORMAT_MARKER (Char.toNat 'A') (Char.toNat 'P')
def FORMAT_ADPCM : Nat := FORMAT_MARKER (Char.toNat 'A') (Char.toNat '8')
def FORMAT_ADPCM_STEREO : Nat := FORMAT_MARKER (Char.toNat 'A') (Char.toNat '9')
def FORMAT_MULTITRACK : Nat := FORMAT_MARKER (Char.toNat 'A') (Char.toNat 'M')
def FORMAT_VORBIS : Nat := FORMAT_MARKER (Char.toNat 'A') (Char.toNat 'V')
def FORMAT_KEYINDEX : Nat := FORMAT_MARKER (Char.toNat 'K') (Char.toNat 'I')
def FORMAT_POSSIBLY_CAPTIONS : Nat := FORMAT_MARKER (Char.toNat 'c') (Char.toNat 'c')
def FORMAT_HEADER_DONE : Nat := FORMAT_MARKER (Char.toNat 'H') (Char.toNat 'E')

/-! ## Constants declared outside the source files -/

/-- Modelled from the spec: `FFERRTAG` (libavutil/error.h), the negated `MKTAG`. -/
def FFERRTAG (a b c d : Nat) : Int := -((MKTAG a b c d : Nat) : Int)

/-- Modelled from the spec: the end-of-stream class error (incomplete header). -/
def AVERROR_EOF : Int := FFERRTAG (Char.toNat 'E') (Char.toNat 'O') (Char.toNat 'F') (Char.toNat ' ')

/-- Modelled from the spec: the unimplemented-feature error. -/
def AVERROR_PATCHWELCOME : Int :=
  FFERRTAG (Char.toNat 'P') (Char.toNat 'A') (Char.toNat 'W') (Char.toNat 'E')

/-- Modelled from the spec: the configuration-unsupported error of the builder. -/
def AVERROR_STREAM_NOT_FOUND : Int :=
  FFERRTAG 0xF8 (Char.toNat 'S') (Char.toNat 'T') (Char.toNat 'R')

/-- Modelled from the spec: `AVERROR(ENOMEM)`, with `ENOMEM = 12`. -/
def AVERROR_ENOMEM : Int := -12

/-- Modelled from the spec: the probe score constant of avformat.h, a positive score. -/
def AVPROBE_SCORE_EXTENSION : Int := 50

/-! ## Byte stream (external collaborator) -/

/-- Modelled from the spec: the byte-stream abstraction (sequential read/write, skip, tell,
end-of-stream signalling) is not among the source files. `data` holds the bytes of the
source that have not been consumed yet, `pos` the number of bytes passed so far (what
`avio_tell` reports), `eof_reached` whether a read ran into the end of the source, and
`written` the bytes emitted to the sink. -/
structure AVIOContext where
  data : List UInt8
  pos : Nat
  eof_reached : Bool
  written : List UInt8
deriving DecidableEq, Repr

/-- Modelled from the spec: read one byte; at the end of the source the read yields 0,
does not advance the position and raises the end-of-stream flag. -/
def avio_r8 (s : AVIOContext) : Nat × AVIOContext :=
  match s.data with
  | [] => (0, { s with eof_reached := true })
  | b :: rest => (b.toNat, { s with data := rest, pos := s.pos + 1 })

/-- Modelled from the spec: little-endian 16-bit read, two byte reads. -/
def avio_rl16 (s : AVIOContext) : Nat × AVIOContext :=
  let r0 := avio_r8 s
  let r1 := avio_r8 r0.2
  (r0.1 + r1.1 * 256, r1.2)

/-- Modelled from the spec: little-endian 32-bit read, two 16-bit reads. -/
def avio_rl32 (s : AVIOContext) : Nat × AVIOContext :=
  let r0 := avio_rl16 s
  let r1 := avio_rl16 r0.2
  (r0.1 + r1.1 * 65536, r1.2)

/-- Modelled from the spec: skip `offset` bytes forward (a seek relative to the current
position: the position moves on by `offset` also past the end of the source). -/
def avio_skip (s : AVIOContext) (offset : Nat) : AVIOContext :=
  { s with data := s.data.drop offset, pos := s.pos + offset }

/-- Modelled from the spec: the current position. -/
def avio_tell (s : AVIOContext) : Nat := s.pos

/-- Modelled from the spec: whether the source has reported its end. -/
def avio_feof (s : AVIOContext) : Bool := s.eof_reached

/-- Modelled from the spec: write one byte (the low 8 bits of `b`) to the sink. -/
def avio_w8 (s : AVIOContext) (b : Nat) : AVIOContext :=
  { s with written := s.written ++ [UInt8.ofNat b], pos := s.pos + 1 }

/-- Modelled from the spec: little-endian 16-bit write. -/
def avio_wl16 (s : AVIOContext) (val : Nat) : AVIOContext :=
  avio_w8 (avio_w8 s val) (val / 256)

/-- Modelled from the spec: little-endian 32-bit write of the low 32 bits of `val`. -/
def avio_wl32 (s : AVIOContext) (val : Nat) : AVIOContext :=
  avio_w8 (avio_w8 (avio_w8 (avio_w8 s val) (val / 256)) (val / 65536)) (val / 16777216)

/-- Modelled from the spec: write the first `size` bytes of `buf` to the sink. -/
def avio_write (s : AVIOContext) (buf : List UInt8) (size : Nat) : AVIOContext :=
  { s with written := s.written ++ buf.take size, pos := s.pos + (buf.take size).length }

/-- Modelled from the spec: an elementary packet, its payload and the stream it belongs to. -/
structure AVPacket where
  data : List UInt8
  stream_index : Int
deriving DecidableEq, Repr

/-- Modelled from the spec: extract exactly `size` bytes as a packet and return `size`; if
the source ends before the extraction can be satisfied in full, fail (truncated stream)
without returning a short packet. -/
def av_get_packet (s : AVIOContext) (pkt : AVPacket) (size : Nat) :
    Int × AVPacket × AVIOContext :=
  if size ≤ s.data.length then
    ((size : Int), { pkt with data := s.data.take size },
      { s with data := s.data.drop size, pos := s.pos + size })
  else
    (AVERROR_EOF, pkt,
      { s with data := [], pos := s.pos + s.data.length, eof_reached := true })

/-! ## Stream descriptors (external declarations) -/

inductive AVMediaType where
  | AVMEDIA_TYPE_UNKNOWN
  | AVMEDIA_TYPE_VIDEO
  | AVMEDIA_TYPE_AUDIO
  | AVMEDIA_TYPE_DATA
  | AVMEDIA_TYPE_SUBTITLE
  | AVMEDIA_TYPE_ATTACHMENT
deriving DecidableEq, Repr

/-- Codec identifiers: the four the source names, and any other codec by its number. -/
inductive AVCodecID where
  | AV_CODEC_ID_NONE
  | AV_CODEC_ID_MOBICLIP
  | AV_CODEC_ID_PCM_S16LE
  | AV_CODEC_ID_FASTAUDIO
  | AV_CODEC_ID_ADPCM_IMA_MOFLEX
  | AV_CODEC_ID_OTHER (id : Nat)
deriving DecidableEq, Repr

open AVMediaType AVCodecID

structure AVChannelLayout where
  nb_channels : Nat
deriving DecidableEq, Repr

def AV_CHANNEL_LAYOUT_MONO : AVChannelLayout := { nb_channels := 1 }
def AV_CHANNEL_LAYOUT_STEREO : AVChannelLayout := { nb_channels := 2 }

structure AVRational where
  num : Nat
  den : Nat
deriving DecidableEq, Repr

/-- Modelled from the spec: the codec parameters of a stream descriptor are declared outside
the source files; the numeric fields hold the 32-bit values as read from or written to the
container. -/
structure AVCodecParameters where
  codec_type : AVMediaType
  codec_id : AVCodecID
  codec_tag : Nat
  width : Nat
  height : Nat
  sample_rate : Nat
  ch_layout : AVChannelLayout
deriving DecidableEq, Repr

/-- Modelled from the spec: a stream descriptor (declared outside the source files). -/
structure AVStream where
  codecpar : AVCodecParameters
  pts_wrap_bits : Nat
  time_base : AVRational
  duration : Nat
  nb_frames : Nat
  avg_frame_rate : AVRational
deriving DecidableEq, Repr

/-- Modelled from the spec: the container context: byte stream, stream descriptors
(`nb_streams` is the length of `streams`) and the private data of the (de)muxer. -/
structure AVFormatContext (P : Type) where
  pb : AVIOContext
  streams : List AVStream
  priv_data : P
deriving DecidableEq, Repr

/-- Modelled from the spec: a descriptor as `avformat_new_stream` hands it out, with no
field set yet. -/
def new_stream : AVStream :=
  { codecpar :=
      { codec_type := AVMEDIA_TYPE_UNKNOWN, codec_id := AV_CODEC_ID_NONE, codec_tag := 0,
        width := 0, height := 0, sample_rate := 0, ch_layout := { nb_channels := 0 } },
    pts_wrap_bits := 0, time_base := { num := 0, den := 0 }, duration := 0, nb_frames := 0,
    avg_frame_rate := { num := 0, den := 0 } }

/-- Modelled from the spec: creating a stream descriptor; memory is not modelled, so the
allocation succeeds. The descriptor is entered into the context by the caller below, once
its fields are known. -/
def avformat_new_stream {P : Type} (_s : AVFormatContext P) : Option AVStream :=
  some new_stream

/-- Modelled from the spec: record the time base `pts_num / pts_den` of a stream. -/
def avpriv_set_pts_info (st : AVStream) (pts_wrap_bits pts_num pts_den : Nat) : AVStream :=
  { st with pts_wrap_bits := pts_wrap_bits, time_base := { num := pts_num, den := pts_den } }

/-! ## Probe (modec.c) -/

structure AVProbeData where
  buf : List UInt8
deriving DecidableEq, Repr

/-- Modelled from the spec: big-endian 32-bit read at an offset of a buffer
(libavutil/intreadwrite.h); the probe buffer is zero padded. -/
def AV_RB32 (buf : List UInt8) (off : Nat) : Nat :=
  (buf.getD off 0).toNat * 2 ^ 24 + (buf.getD (off + 1) 0).toNat * 2 ^ 16
    + (buf.getD (off + 2) 0).toNat * 2 ^ 8 + (buf.getD (off + 3) 0).toNat

/-- Modelled from the spec: big-endian 16-bit read at an offset of a buffer. -/
def AV_RB16 (buf : List UInt8) (off : Nat) : Nat :=
  (buf.getD off 0).toNat * 2 ^ 8 + (buf.getD (off + 1) 0).toNat

def mo_probe (p : AVProbeData) : Int :=
  if AV_RB32 p.buf 0 ≠ MO_TAG then 0
  else if AV_RB32 p.buf 4 < 0x28 then 0 -- Rough minimum size
  else if AV_RB16 p.buf 8 ≠ FORMAT_LENGTH then 0 -- Typically first
  else AVPROBE_SCORE_EXTENSION + 10

/-! ## Header parser (modec.c) -/

structure MoDemuxContext where
  handle_audio_packet : Int
  audio_size : Nat
  unknown_size : Nat
deriving DecidableEq, Repr

def mo_handle_audio (ast : AVStream) (marker : Nat) (pb : AVIOContext) :
    Int × AVStream × AVIOContext :=
  let ast := { ast with codecpar :=
    { ast.codecpar with codec_type := AVMEDIA_TYPE_AUDIO, codec_tag := 0 } }
  let r := avio_rl32 pb
  let sample_rate := r.1
  let ast := { ast with codecpar := { ast.codecpar with sample_rate := sample_rate } }
  let ast := avpriv_set_pts_info ast 1 64 ast.codecpar.sample_rate
  -- the channel count of the container is not used
  let pb := avio_skip r.2 4
  if marker = FORMAT_FASTAUDIO then
    (0, { ast with codecpar := { ast.codecpar with
      codec_id := AV_CODEC_ID_FASTAUDIO, ch_layout := AV_CHANNEL_LAYOUT_MONO } }, pb)
  else if marker = FORMAT_FASTAUDIO_STEREO then
    (0, { ast with codecpar := { ast.codecpar with
      codec_id := AV_CODEC_ID_FASTAUDIO, ch_layout := AV_CHANNEL_LAYOUT_STEREO } }, pb)
  else if marker = FORMAT_PCM then
    (0, { ast with codecpar := { ast.codecpar with
      codec_id := AV_CODEC_ID_PCM_S16LE, ch_layout := AV_CHANNEL_LAYOUT_STEREO } }, pb)
  else if marker = FORMAT_ADPCM then
    (0, { ast with codecpar := { ast.codecpar with
      codec_id := AV_CODEC_ID_ADPCM_IMA_MOFLEX, ch_layout := AV_CHANNEL_LAYOUT_MONO } }, pb)
  else if marker = FORMAT_ADPCM_STEREO then
    (0, { ast with codecpar := { ast.codecpar with
      codec_id := AV_CODEC_ID_ADPCM_IMA_MOFLEX, ch_layout := AV_CHANNEL_LAYOUT_STEREO } }, pb)
  else
    -- Unknown audio type.
    (-1, ast, pb)

/-- The variables the chunk loop of `mo_read_header` works on: the byte stream and the two
stream descriptors `vst` and `ast`. -/
structure HeaderState where
  pb : AVIOContext
  vst : AVStream
  ast : AVStream
deriving DecidableEq, Repr

/-- How one iteration of the chunk loop ends. -/
inductive ChunkOutcome where
  /-- the iteration ran through with `has_read_header == 0`: the loop goes on -/
  | next (st : HeaderState)
  /-- the header-done marker set `has_read_header = 1`: the loop ends -/
  | done (st : HeaderState)
  /-- one of the two `break`s: the header extent is exhausted -/
  | exhausted (st : HeaderState)
  /-- a `return` from inside the loop -/
  | failed (err : Int) (st : HeaderState)
deriving DecidableEq, Repr

/-- The `switch (format_marker)` statement in the loop of `mo_read_header`, entered with
the byte stream just behind the 4-byte chunk header. -/
def mo_read_header_switch (format_marker format_length : Nat) (st : HeaderState) :
    ChunkOutcome :=
  let pb := st.pb
  if format_marker = FORMAT_LENGTH then
    let den := avio_rl32 pb
    let vst := avpriv_set_pts_info st.vst 1 256 den.1
    let frame_count := avio_rl32 den.2
    let vst := { vst with duration := frame_count.1 }
    let ast := { st.ast with duration := frame_count.1 }
    .next { pb := avio_skip frame_count.2 4, vst := vst, ast := ast }
  else if format_marker = FORMAT_VIDEO then
    let w := avio_rl32 pb
    let h := avio_rl32 w.2
    .next { st with pb := h.2, vst := { st.vst with codecpar :=
      { st.vst.codecpar with width := w.1, height := h.1 } } }
  else if format_marker = FORMAT_RSA then
    .next { st with pb := avio_skip pb format_length }
  else if format_marker = FORMAT_UNKNOWN_AUDIO then
    .next { st with pb := avio_skip pb format_length }
  else if format_marker = FORMAT_FASTAUDIO ∨ format_marker = FORMAT_FASTAUDIO_STEREO
      ∨ format_marker = FORMAT_PCM ∨ format_marker = FORMAT_ADPCM
      ∨ format_marker = FORMAT_ADPCM_STEREO then
    let result := mo_handle_audio st.ast format_marker pb
    if result.1 = -1 then
      -- Unknown audio type
      .failed AVERROR_PATCHWELCOME { st with pb := result.2.2, ast := result.2.1 }
    else
      .next { st with pb := result.2.2, ast := result.2.1 }
  else if format_marker = FORMAT_MULTITRACK then
    .failed AVERROR_PATCHWELCOME st
  else if format_marker = FORMAT_VORBIS then
    .failed AVERROR_PATCHWELCOME st
  else if format_marker = FORMAT_KEYINDEX then
    .next { st with pb := avio_skip pb format_length }
  else if format_marker = FORMAT_HEADER_DONE then
    -- We should be finished!
    .done st
  else
    -- unknown chunk: ignored
    .next { st with pb := avio_skip pb format_length }

/-- One iteration of the `while (has_read_header == 0)` loop of `mo_read_header`: the two
tests against the header extent around the read of the chunk header, then the switch. -/
def mo_read_header_chunk (header_length : Nat) (st : HeaderState) : ChunkOutcome :=
  if avio_tell st.pb > header_length then
    -- Exhausted header
    .exhausted st
  else
    let m := avio_rl16 st.pb
    let format_marker := m.1
    -- Length in file is amount of u32s available within format segment.
    let l := avio_rl16 m.2
    let format_length := (l.1 * 4) % 2 ^ 16
    let pb := l.2
    if avio_tell pb + format_length > header_length then
      -- Will exhaust header length
      .exhausted { st with pb := pb }
    else
      mo_read_header_switch format_marker format_length { st with pb := pb }

/-- The chunk loop of `mo_read_header` followed by the test of `has_read_header`: the
result is the value the function returns and the state it leaves. `none`: the loop is
still running after `fuel` iterations. -/
def mo_read_header_loop : Nat → Nat → HeaderState → Option (Int × HeaderState)
  | 0, _, _ => none
  | fuel + 1, header_length, st =>
    match mo_read_header_chunk header_length st with
    | .next st1 => mo_read_header_loop fuel header_length st1
    | .done st1 => some (0, st1)
    | .exhausted st1 => some (AVERROR_EOF, st1)
    | .failed err st1 => some (err, st1)

/-- The state in which the chunk loop starts, and the header extent: two fresh stream
descriptors, the magic skipped, the header length read and 8 added in 32 bits. -/
def mo_read_header_init (vst ast : AVStream) (pb : AVIOContext) : Nat × HeaderState :=
  let pb := avio_skip pb 4
  -- Add 8 to account for magic and header length
  let len := avio_rl32 pb
  ((len.1 + 8) % 2 ^ 32, { pb := len.2, vst := vst, ast := ast })

def mo_read_header (fuel : Nat) (s : AVFormatContext MoDemuxContext) :
    Option (Int × AVFormatContext MoDemuxContext) :=
  match avformat_new_stream s with
  | none => some (AVERROR_ENOMEM, s)
  | some vst =>
    let vst := { vst with codecpar := { vst.codecpar with
      codec_type := AVMEDIA_TYPE_VIDEO, codec_id := AV_CODEC_ID_MOBICLIP } }
    match avformat_new_stream s with
    | none => some (AVERROR_ENOMEM, { s with streams := s.streams ++ [vst] })
    | some ast =>
      let i := mo_read_header_init vst ast s.pb
      match mo_read_header_loop fuel i.1 i.2 with
      | none => none
      | some (ret, st) =>
        some (ret, { s with pb := st.pb, streams := s.streams ++ [st.vst, st.ast] })

/-! ## Packet demuxer (modec.c) -/

/-- Conversion to `uint32_t`. -/
def u32 (x : Nat) : Nat := x % 2 ^ 32

/-- Addition of two `uint32_t` values. -/
def u32_add (a b : Nat) : Nat := (a + b) % 2 ^ 32

/-- Subtraction of two `uint32_t` values (`a`, `b` below `2^32`). -/
def u32_sub (a b : Nat) : Nat := (a + 2 ^ 32 - b) % 2 ^ 32

def mo_read_packet (s : AVFormatContext MoDemuxContext) (pkt : AVPacket) :
    Int × AVPacket × AVFormatContext MoDemuxContext :=
  let mo := s.priv_data
  let pb := s.pb
  -- Determine whether audio or video.
  if mo.handle_audio_packet ≠ 0 then
    -- We now need to read the audio packet within this chunk.
    let g := av_get_packet pb pkt mo.audio_size
    let ret := g.1
    if ret < 0 then
      (ret, g.2.1, { s with pb := g.2.2 })
    else
      -- Skip over the following data.
      let pb := avio_skip g.2.2 mo.unknown_size
      -- Stream 1 is always audio.
      let pkt := { g.2.1 with stream_index := 1 }
      let mo := { mo with handle_audio_packet := 0 }
      if avio_feof pb then
        (AVERROR_EOF, pkt, { s with pb := pb, priv_data := mo })
      else
        (ret, pkt, { s with pb := pb, priv_data := mo })
  else
    -- Dissect the current packet's header.
    let c := avio_rl32 pb
    let chunk_size := c.1
    let v := avio_rl32 c.2
    let video_size := v.1
    let pb := v.2
    let audio_size := u32_sub (u32_sub chunk_size video_size) 8
    let pos := u32 (avio_tell pb + video_size + audio_size)
    let unknown_size := u32_sub (u32_sub (u32_add pos 4) (pos % 4)) pos
    let mo := { mo with audio_size := audio_size, unknown_size := unknown_size }
    let g := av_get_packet pb pkt video_size
    let ret := g.1
    if ret < 0 then
      (ret, g.2.1, { s with pb := g.2.2, priv_data := mo })
    else
      -- Stream 0 is always video.
      let pkt := { g.2.1 with stream_index := 0 }
      let mo := { mo with handle_audio_packet := 1 }
      if avio_feof g.2.2 then
        (AVERROR_EOF, pkt, { s with pb := g.2.2, priv_data := mo })
      else
        (ret, pkt, { s with pb := g.2.2, priv_data := mo })

/-! ## Header builder (moenc.c) -/

structure MoMuxContext where
  header_size : Int
deriving DecidableEq, Repr

/-- The constant `rsa_key` of `mo_write_header`. -/
def rsa_key : List UInt8 :=
  [0x2B, 0x8F, 0x50, 0x80, 0xE3, 0x23, 0x38, 0xCE, 0x86, 0x70, 0xDD, 0xA6, 0xE0, 0x19, 0xE3,
   0xBB, 0xC5, 0xDB, 0xE6, 0x12, 0x55, 0x06, 0x7A, 0x46, 0x1F, 0xEE, 0xD5, 0xBE, 0x40, 0x41,
   0xBB, 0x60, 0x71, 0x50, 0xD6, 0x1D, 0x1D, 0x8B, 0xD5, 0xDB, 0xF2, 0x2C, 0x19, 0x73, 0xDA,
   0x60, 0xAC, 0xF0, 0xF4, 0xD2, 0x68, 0xBF, 0x47, 0x21, 0x7B, 0x92, 0x66, 0x1E, 0xDD, 0x31,
   0x59, 0x6D, 0xFA, 0x9F, 0xF7, 0x6A, 0x6B, 0xC5, 0x5E, 0x2B, 0xF9, 0x78, 0xB3, 0x7B, 0x3A,
   0xA6, 0x65, 0x87, 0x16, 0x05, 0x38, 0xC6, 0x2B, 0x29, 0x27, 0xA9, 0x42, 0xC0, 0x0E, 0x1B,
   0x96, 0xF3, 0xD3, 0xC5, 0x21, 0xF4, 0xBD, 0x0E, 0x7B, 0xB3, 0xCF, 0x00, 0x90, 0xEE, 0xA4,
   0xA4, 0x85, 0xDC, 0xEB, 0x0F, 0xF2, 0x40, 0xC8, 0xD1, 0x46, 0x85, 0x55, 0x0F, 0xC5, 0x71,
   0xE6, 0xF7, 0xE3, 0xD5, 0x45, 0x46, 0xA4, 0xC6, 0xE3, 0xCC, 0xBD, 0xD4, 0x85, 0x7F, 0xBA,
   0x1B, 0xA0, 0x9C, 0x0D, 0xE3, 0x19, 0x70, 0x63, 0x26, 0x45, 0xA7, 0x12, 0xAC, 0xD3, 0x1E,
   0x95, 0x0A, 0xD4, 0x46, 0x72, 0x7B, 0xAD, 0xF6, 0xEB, 0xE3]

def mo_write_header (s : AVFormatContext MoMuxContext) : Int × AVFormatContext MoMuxContext :=
  let pb := s.pb
  let mo := s.priv_data
  -- Ensure we have two streams (`nb_streams` is the length of `streams`).
  match s.streams with
  | [video_stream, audio_stream] =>
    -- Get video stream.
    let video_par := video_stream.codecpar
    if video_par.codec_type ≠ AVMEDIA_TYPE_VIDEO
        ∧ video_par.codec_id ≠ AV_CODEC_ID_MOBICLIP then
      (AVERROR_STREAM_NOT_FOUND, s)
    else
      -- Get audio stream.
      let audio_par := audio_stream.codecpar
      if audio_par.codec_type ≠ AVMEDIA_TYPE_AUDIO
          ∧ audio_par.codec_id ≠ AV_CODEC_ID_PCM_S16LE then
        (AVERROR_PATCHWELCOME, s)
      else
        -- Container format identifier.
        let pb := avio_wl32 pb MO_TAG
        -- Length of header.
        let pb := avio_wl32 pb 0
        -- We've written 8 bytes so far.
        let mo := { mo with header_size := 8 }
        let pb := avio_wl16 pb FORMAT_LENGTH
        let pb := avio_wl16 pb 3
        let pb := avio_wl32 pb (video_stream.avg_frame_rate.num * 256)
        let pb := avio_wl32 pb video_stream.nb_frames
        let pb := avio_wl32 pb 0
        let mo := { mo with header_size := mo.header_size + 16 }
        let pb := avio_wl16 pb FORMAT_VIDEO
        let pb := avio_wl16 pb 2
        let pb := avio_wl32 pb video_par.width
        let pb := avio_wl32 pb video_par.height
        let mo := { mo with header_size := mo.header_size + 12 }
        let pb := avio_wl16 pb FORMAT_RSA
        let pb := avio_wl16 pb 40
        let pb := avio_write pb rsa_key 160
        let mo := { mo with header_size := mo.header_size + 164 }
        let pb := avio_wl16 pb FORMAT_PCM
        let pb := avio_wl16 pb 2
        let pb := avio_wl32 pb audio_par.sample_rate
        let pb := avio_wl32 pb audio_par.ch_layout.nb_channels
        let mo := { mo with header_size := mo.header_size + 12 }
        -- Lastly, the end of our header.
        let pb := avio_wl16 pb FORMAT_HEADER_DONE
        let pb := avio_wl16 pb 0
        let mo := { mo with header_size := mo.header_size + 4 }
        (0, { s with pb := pb, priv_data := mo })
  | _ => (AVERROR_STREAM_NOT_FOUND, s)

def mo_write_packet (_s : AVFormatContext MoMuxContext) (_pkt : AVPacket) : Int := 0

/-! ## Specification-side vocabulary -/

/-- The two bytes of a little-endian 16-bit field holding the low 16 bits of `v`. -/
def le16 (v : Nat) : List UInt8 := [UInt8.ofNat v, UInt8.ofNat (v / 256)]

/-- The four bytes of a little-endian 32-bit field holding the low 32 bits of `v`. -/
def le32 (v : Nat) : List UInt8 :=
  [UInt8.ofNat v, UInt8.ofNat (v / 256), UInt8.ofNat (v / 65536), UInt8.ofNat (v / 16777216)]

/-- The five audio markers A2, A3, AP, A8, A9. -/
def is_audio_marker (m : Nat) : Prop :=
  m = FORMAT_FASTAUDIO ∨ m = FORMAT_FASTAUDIO_STEREO ∨ m = FORMAT_PCM ∨ m = FORMAT_ADPCM
    ∨ m = FORMAT_ADPCM_STEREO

instance (m : Nat) : Decidable (is_audio_marker m) := by
  unfold is_audio_marker; infer_instance

/-- A minimal header as the specification describes it: four magic bytes, the header-length
field `L`, a length chunk (3 words: `d`, `n`, a reserved word), a video chunk (2 words:
`w`, `h`), one audio chunk with marker `am` (2 words: `r`, `c`) and a header-done chunk of
length zero. -/
def minimal_header (m0 m1 m2 m3 : UInt8) (L d n res w h am r c : Nat) : List UInt8 :=
  [m0, m1, m2, m3] ++ le32 L
    ++ le16 FORMAT_LENGTH ++ le16 3 ++ le32 d ++ le32 n ++ le32 res
    ++ le16 FORMAT_VIDEO ++ le16 2 ++ le32 w ++ le32 h
    ++ le16 am ++ le16 2 ++ le32 r ++ le32 c
    ++ le16 FORMAT_HEADER_DONE ++ le16 0

/-- A chunk as the specification frames it: two marker characters, the little-endian
16-bit word count, the payload. -/
def tlv_chunk (c0 c1 : Char) (word_count : Nat) (payload : List UInt8) : List UInt8 :=
  [UInt8.ofNat c0.toNat, UInt8.ofNat c1.toNat] ++ le16 word_count ++ payload

/-- The byte sequence the specification prescribes for the built header. -/
def expected_header (num nb_frames width height sample_rate nb_channels : Nat) : List UInt8 :=
  [UInt8.ofNat (Char.toNat 'M'), UInt8.ofNat (Char.toNat 'O'), UInt8.ofNat (Char.toNat 'C'),
    UInt8.ofNat (Char.toNat '5')]
    ++ le32 0
    ++ tlv_chunk 'T' 'L' 3 (le32 (num * 256) ++ le32 nb_frames ++ le32 0)
    ++ tlv_chunk 'V' '2' 2 (le32 width ++ le32 height)
    ++ tlv_chunk 'p' 'c' 40 rsa_key
    ++ tlv_chunk 'A' 'P' 2 (le32 sample_rate ++ le32 nb_channels)
    ++ tlv_chunk 'H' 'E' 0 []

/-- A stream descriptor of the given kind, codec and parameters, for concrete inputs. -/
def mk_stream (codec_type : AVMediaType) (codec_id : AVCodecID)
    (width height sample_rate nb_channels nb_frames fps_num : Nat) : AVStream :=
  { codecpar :=
      { codec_type := codec_type, codec_id := codec_id, codec_tag := 0,
        width := width, height := height, sample_rate := sample_rate,
        ch_layout := { nb_channels := nb_channels } },
    pts_wrap_bits := 0, time_base := { num := 0, den := 0 }, duration := 0,
    nb_frames := nb_frames, avg_frame_rate := { num := fps_num, den := 1 } }

/-- A mux configuration over an empty sink. -/
def mux_config (streams : List AVStream) : AVFormatContext MoMuxContext :=
  { pb := { data := [], pos := 0, eof_reached := false, written := [] },
    streams := streams, priv_data := { header_size := 0 } }

/-- A concrete accepted configuration: Mobiclip video 320x240, 30 fps, 100 frames, and
PCM S16LE audio at 32000 Hz with 2 channels. -/
def mobiclip_pcm_config : AVFormatContext MoMuxContext :=
  mux_config
    [mk_stream AVMEDIA_TYPE_VIDEO AV_CODEC_ID_MOBICLIP 320 240 0 0 100 30,
     mk_stream AVMEDIA_TYPE_AUDIO AV_CODEC_ID_PCM_S16LE 0 0 32000 2 0 0]

/-- A concrete configuration with neither Mobiclip video nor PCM audio: a video stream of
codec number 27 and an audio stream of codec number 86017. -/
def other_codecs_config : AVFormatContext MoMuxContext :=
  mux_config
    [mk_stream AVMEDIA_TYPE_VIDEO (AV_CODEC_ID_OTHER 27) 320 240 0 0 100 30,
     mk_stream AVMEDIA_TYPE_AUDIO (AV_CODEC_ID_OTHER 86017) 0 0 32000 2 0 0]

/-- A freshly opened demux context over the given bytes. -/
def demux_open (bytes : List UInt8) : AVFormatContext MoDemuxContext :=
  { pb := { data := bytes, pos := 0, eof_reached := false, written := [] },
    streams := [], priv_data := { handle_audio_packet := 0, audio_size := 0, unknown_size := 0 } }

/-- A chunk of the packet stream as the specification frames it: the video payload, the
audio payload and the padding bytes; the two size fields are determined by the payloads. -/
structure MoChunk where
  video : List UInt8
  audio : List UInt8
  padding : List UInt8
deriving DecidableEq, Repr

/-- The bytes of a chunk: `u32 chunk_size` (video size + audio size + 8), `u32 video_size`,
the video payload, the audio payload, the padding. -/
def chunk_bytes (c : MoChunk) : List UInt8 :=
  le32 (c.video.length + c.audio.length + 8) ++ le32 c.video.length
    ++ c.video ++ c.audio ++ c.padding

/-- The bytes of a sequence of chunks. -/
def stream_bytes : List MoChunk → List UInt8
  | [] => []
  | c :: cs => chunk_bytes c ++ stream_bytes cs

/-- The padding amount the specification gives for a position: `(pos + 4 - pos mod 4) - pos`. -/
def padding_size (pos : Nat) : Nat := (pos + 4 - pos % 4) - pos

/-- Well-formed chunks starting at position `start`: the chunk size fits 32 bits, and the
padding has the length the padding formula gives for the position after the two payloads. -/
def chunks_well_formed : Nat → List MoChunk → Bool
  | _, [] => true
  | start, c :: cs =>
    decide (c.video.length + c.audio.length + 8 < 2 ^ 32)
      && decide (c.padding.length = padding_size (start + 8 + c.video.length + c.audio.length))
      && chunks_well_formed (start + (chunk_bytes c).length) cs

/-- The packets the specification expects from a sequence of chunks, each with the value
its read returns: the video payload on stream 0, then the audio payload on stream 1. -/
def expected_packets : List MoChunk → List (Int × AVPacket)
  | [] => []
  | c :: cs =>
    ((c.video.length : Int), { data := c.video, stream_index := 0 })
      :: ((c.audio.length : Int), { data := c.audio, stream_index := 1 })
      :: expected_packets cs

/-- Successive calls of `mo_read_packet`, each on the packet `pkt` the caller hands in:
the return value and the packet of every call, and the context after the last one. -/
def read_packets : Nat → AVFormatContext MoDemuxContext → AVPacket →
    List (Int × AVPacket) × AVFormatContext MoDemuxContext
  | 0, s, _ => ([], s)
  | n + 1, s, pkt =>
    let r := mo_read_packet s pkt
    let rs := read_packets n r.2.2 pkt
    ((r.1, r.2.1) :: rs.1, rs.2)

/-- The stream indices 0, 1, 0, 1, ... of `n` video/audio pairs. -/
def alternating_indices : Nat → List Int
  | 0 => []
  | n + 1 => 0 :: 1 :: alternating_indices n

/-- The scan of the chunk loop of `mo_read_header`: the state in which iteration `k`
(counted from 0) starts, provided each of the `k` iterations before it ran through and left
the loop running. -/
def mo_read_header_scan : Nat → Nat → HeaderState → Option HeaderState
  | 0, _, st => some st
  | k + 1, header_length, st =>
    match mo_read_header_chunk header_length st with
    | .next st1 => mo_read_header_scan k header_length st1
    | _ => none

/-- The video descriptor as `mo_read_header` sets it up before the loop. -/
def new_video_stream : AVStream :=
  { new_stream with codecpar := { new_stream.codecpar with
      codec_type := AVMEDIA_TYPE_VIDEO, codec_id := AV_CODEC_ID_MOBICLIP } }

/-- The header extent and the state in which `mo_read_header` enters its chunk loop. -/
def mo_read_header_start (s : AVFormatContext MoDemuxContext) : Nat × HeaderState :=
  mo_read_header_init new_video_stream new_stream s.pb

/-- The value a little-endian 16-bit read yields on the unread bytes `d` (a byte missing at
the end of the source reads as 0). -/
def rd16 (d : List UInt8) : Nat := (d.getD 0 0).toNat + (d.getD 1 0).toNat * 256

/-- The value a little-endian 32-bit read yields on the unread bytes `d`. -/
def rd32 (d : List UInt8) : Nat := rd16 d + rd16 (d.drop 2) * 65536

/-- The byte stream with its position counted from `delta` bytes earlier. -/
def shift_pb (delta : Nat) (pb : AVIOContext) : AVIOContext :=
  { pb with pos := pb.pos + delta }

/-- The loop state with the position of its byte stream moved on by `delta`. -/
def shift_state (delta : Nat) (st : HeaderState) : HeaderState :=
  { st with pb := shift_pb delta st.pb }

/-- The outcome of an iteration with the position of its byte stream moved on by `delta`. -/
def shift_outcome (delta : Nat) : ChunkOutcome → ChunkOutcome
  | .next st => .next (shift_state delta st)
  | .done st => .done (shift_state delta st)
  | .exhausted st => .exhausted (shift_state delta st)
  | .failed err st => .failed err (shift_state delta st)

/-- The loop state with the unread bytes of its byte stream replaced. -/
def with_data (st : HeaderState) (d : List UInt8) : HeaderState :=
  { st with pb := { st.pb with data := d } }

/-- The markers for which the switch of `mo_read_header` has a branch of its own. -/
def has_dedicated_branch (m : Nat) : Prop :=
  m = FORMAT_LENGTH ∨ m = FORMAT_VIDEO ∨ m = FORMAT_RSA ∨ m = FORMAT_UNKNOWN_AUDIO
    ∨ m = FORMAT_FASTAUDIO ∨ m = FORMAT_FASTAUDIO_STEREO ∨ m = FORMAT_PCM ∨ m = FORMAT_ADPCM
    ∨ m = FORMAT_ADPCM_STEREO ∨ m = FORMAT_MULTITRACK ∨ m = FORMAT_VORBIS
    ∨ m = FORMAT_KEYINDEX ∨ m = FORMAT_HEADER_DONE

instance (m : Nat) : Decidable (has_dedicated_branch m) := by
  unfold has_dedicated_branch; infer_instance

/-- The demux context over other bytes, all else equal. -/
def with_bytes (s : AVFormatContext MoDemuxContext) (bytes : List UInt8) :
    AVFormatContext MoDemuxContext :=
  { s with pb := { s.pb with data := bytes } }

/-- The length chunk and the video chunk of a sample header. -/
def sample_pre : List UInt8 :=
  le16 FORMAT_LENGTH ++ le16 3 ++ le32 7680 ++ le32 100 ++ le32 0
    ++ le16 FORMAT_VIDEO ++ le16 2 ++ le32 320 ++ le32 240

/-- The PCM audio chunk and the header-done chunk of a sample header. -/
def sample_suf : List UInt8 :=
  le16 FORMAT_PCM ++ le16 2 ++ le32 32000 ++ le32 2 ++ le16 FORMAT_HEADER_DONE ++ le16 0

/-- The video descriptor the sample header describes. -/
def sample_video : AVStream :=
  { codecpar :=
      { codec_type := AVMEDIA_TYPE_VIDEO, codec_id := AV_CODEC_ID_MOBICLIP, codec_tag := 0,
        width := 320, height := 240, sample_rate := 0, ch_layout := { nb_channels := 0 } },
    pts_wrap_bits := 1, time_base := { num := 256, den := 7680 }, duration := 100,
    nb_frames := 0, avg_frame_rate := { num := 0, den := 0 } }

/-- The audio descriptor the sample header describes. -/
def sample_audio : AVStream :=
  { codecpar :=
      { codec_type := AVMEDIA_TYPE_AUDIO, codec_id := AV_CODEC_ID_PCM_S16LE, codec_tag := 0,
        width := 0, height := 0, sample_rate := 32000, ch_layout := AV_CHANNEL_LAYOUT_STEREO },
    pts_wrap_bits := 1, time_base := { num := 64, den := 32000 }, duration := 100,
    nb_frames := 0, avg_frame_rate := { num := 0, den := 0 } }

/-! ## Vocabulary for the packet reader, the chunk loop and the round trip -/

/-- The extraction `mo_read_packet` performs on a state: the result of its call of
`av_get_packet`, the packet it fills, and the byte stream on which `avio_feof` is then
tested (in the audio phase: after the skip of the padding). -/
def mo_read_packet_extraction (s : AVFormatContext MoDemuxContext) (pkt : AVPacket) :
    Int × AVPacket × AVIOContext :=
  if s.priv_data.handle_audio_packet ≠ 0 then
    let g := av_get_packet s.pb pkt s.priv_data.audio_size
    (g.1, g.2.1, avio_skip g.2.2 s.priv_data.unknown_size)
  else
    let c := avio_rl32 s.pb
    let v := avio_rl32 c.2
    av_get_packet v.2 pkt v.1

/-- The local `pos` of the video phase of `mo_read_packet`: the 32-bit position behind the
two payloads of the chunk. -/
def mo_read_packet_pos (s : AVFormatContext MoDemuxContext) : Nat :=
  let c := avio_rl32 s.pb
  let v := avio_rl32 c.2
  u32 (avio_tell v.2 + v.1 + u32_sub (u32_sub c.1 v.1) 8)

/-- The local `format_length` of an iteration of the loop of `mo_read_header`: the word
count read behind the marker, times 4, stored in a `uint16_t`. -/
def chunk_format_length (st : HeaderState) : Nat :=
  ((avio_rl16 (avio_rl16 st.pb).2).1 * 4) % 2 ^ 16

/-- The marker an iteration of the loop of `mo_read_header` reads. -/
def chunk_format_marker (st : HeaderState) : Nat := (avio_rl16 st.pb).1

/-- The position just behind the chunk header an iteration reads. -/
def chunk_payload_pos (st : HeaderState) : Nat := avio_tell (avio_rl16 (avio_rl16 st.pb).2).2

/-- A loop state over the given unread bytes at the given position, with fresh
descriptors. -/
def scan_state (bytes : List UInt8) (pos : Nat) : HeaderState :=
  { pb := { data := bytes, pos := pos, eof_reached := false, written := [] },
    vst := new_video_stream, ast := new_stream }

/-- The emitted header with only its length field, bytes 4..7, replaced by the
little-endian value `L`. -/
def replace_length_field (bytes : List UInt8) (L : Nat) : List UInt8 :=
  bytes.take 4 ++ le32 L ++ bytes.drop 8

/-- The audio descriptor the specification's marker table prescribes: kind audio, tag 0,
the sample rate read, time base 64 / sample rate, and the codec and layout of the marker. -/
def audio_descriptor (ast : AVStream) (sample_rate : Nat) (codec_id : AVCodecID)
    (ch_layout : AVChannelLayout) : AVStream :=
  { ast with
    codecpar :=
      { ast.codecpar with
        codec_type := AVMEDIA_TYPE_AUDIO, codec_tag := 0, sample_rate := sample_rate,
        codec_id := codec_id, ch_layout := ch_layout },
    pts_wrap_bits := 1, time_base := { num := 64, den := sample_rate } }

/-- A buffer the probe accepts: the bytes 5, C, O, M, the big-endian size 0x28, the bytes
L, T, and behind them a word count of 3 with three payload words. -/
def probe_sample : List UInt8 :=
  [0x35, 0x43, 0x4F, 0x4D, 0, 0, 0, 0x28, 0x4C, 0x54, 3, 0,
   1, 0, 0, 0, 2, 0, 0, 0, 3, 0, 0, 0]

/-- A length chunk that declares four payload words instead of three, followed by a
header-done chunk. -/
def long_length_chunk : List UInt8 :=
  le16 FORMAT_LENGTH ++ le16 4 ++ le32 7680 ++ le32 100 ++ le32 0 ++ le32 0
    ++ le16 FORMAT_HEADER_DONE ++ le16 0

/-- The bytes `mo_write_header` appends to the sink. -/
def mo_write_header_emitted (s : AVFormatContext MoMuxContext) : List UInt8 :=
  (mo_write_header s).2.pb.written.drop s.pb.written.length

/-- The five chunks of a header as `mo_write_header` lays them out behind the length field:
length chunk (`d`, `n`, 0), video chunk (`w`, `h`), the `pc` chunk holding the key, PCM
audio chunk (`r`, `c`) and the header-done chunk. -/
def written_chunks (d n w h r c : Nat) : List UInt8 :=
  le16 FORMAT_LENGTH ++ (le16 3 ++ (le32 d ++ (le32 n ++ (le32 0 ++
    (le16 FORMAT_VIDEO ++ (le16 2 ++ (le32 w ++ (le32 h ++
      (le16 FORMAT_RSA ++ (le16 40 ++ (rsa_key ++
        (le16 FORMAT_PCM ++ (le16 2 ++ (le32 r ++ (le32 c ++
          (le16 FORMAT_HEADER_DONE ++ (le16 0 ++ [])))))))))))))))))

/-! ## Theorems -/

/-! ### Marker values and little-endian fields -/

theorem FORMAT_LENGTH_eq : FORMAT_LENGTH = 19540 := by decide
theorem FORMAT_VIDEO_eq : FORMAT_VIDEO = 12886 := by decide
theorem FORMAT_RSA_eq : FORMAT_RSA = 25456 := by decide
theorem FORMAT_UNKNOWN_AUDIO_eq : FORMAT_UNKNOWN_AUDIO = 50768 := by decide
theorem FORMAT_FASTAUDIO_eq : FORMAT_FASTAUDIO = 12865 := by decide
theorem FORMAT_FASTAUDIO_STEREO_eq : FORMAT_FASTAUDIO_STEREO = 13121 := by decide
theorem FORMAT_PCM_eq : FORMAT_PCM = 20545 := by decide
theorem FORMAT_ADPCM_eq : FORMAT_ADPCM = 14401 := by decide
theorem FORMAT_ADPCM_STEREO_eq : FORMAT_ADPCM_STEREO = 14657 := by decide
theorem FORMAT_MULTITRACK_eq : FORMAT_MULTITRACK = 19777 := by decide
theorem FORMAT_VORBIS_eq : FORMAT_VORBIS = 22081 := by decide
theorem FORMAT_KEYINDEX_eq : FORMAT_KEYINDEX = 18763 := by decide
theorem FORMAT_HEADER_DONE_eq : FORMAT_HEADER_DONE = 17736 := by decide
theorem MO_TAG_eq : MO_TAG = 893603661 := by decide

theorem toNat_ofNat (n : Nat) : (UInt8.ofNat n).toNat = n % 256 := by
  simp [UInt8.ofNat, UInt8.toNat]

theorem avio_rl16_le16 (v : Nat) (hv : v < 65536) (t : List UInt8) (p : Nat) (e : Bool)
    (wr : List UInt8) :
    avio_rl16 ⟨le16 v ++ t, p, e, wr⟩ = (v, ⟨t, p + 2, e, wr⟩) := by
  simp only [avio_rl16, avio_r8, le16, List.cons_append, List.nil_append, toNat_ofNat]
  refine Prod.ext ?_ rfl
  show v % 256 + v / 256 % 256 * 256 = v
  omega

theorem avio_rl32_le32 (v : Nat) (hv : v < 2 ^ 32) (t : List UInt8) (p : Nat) (e : Bool)
    (wr : List UInt8) :
    avio_rl32 ⟨le32 v ++ t, p, e, wr⟩ = (v, ⟨t, p + 4, e, wr⟩) := by
  simp only [avio_rl32, avio_rl16, avio_r8, le32, List.cons_append, List.nil_append, toNat_ofNat]
  refine Prod.ext ?_ rfl
  show v % 256 + v / 256 % 256 * 256 + (v / 65536 % 256 + v / 16777216 % 256 * 256) * 65536 = v
  omega

theorem avio_skip_le32 (v : Nat) (t : List UInt8) (p : Nat) (e : Bool) (wr : List UInt8) :
    avio_skip ⟨le32 v ++ t, p, e, wr⟩ 4 = ⟨t, p + 4, e, wr⟩ := by
  simp [avio_skip, le32]

/-! ### Probe -/

/-- The probe returns either 0 or the score `AVPROBE_SCORE_EXTENSION + 10`, and the score is
returned exactly when the big-endian word at offset 0 is `MO_TAG`, the big-endian word at
offset 4 is at least 0x28 and the big-endian half word at offset 8 is `FORMAT_LENGTH`. -/
theorem mo_probe_score_iff (p : AVProbeData) :
    (mo_probe p = 0 ∨ mo_probe p = AVPROBE_SCORE_EXTENSION + 10)
    ∧ (mo_probe p = AVPROBE_SCORE_EXTENSION + 10 ↔
        AV_RB32 p.buf 0 = MO_TAG ∧ 0x28 ≤ AV_RB32 p.buf 4 ∧ AV_RB16 p.buf 8 = FORMAT_LENGTH) := by
  have hs : AVPROBE_SCORE_EXTENSION + 10 ≠ 0 := by decide
  unfold mo_probe
  by_cases h1 : AV_RB32 p.buf 0 = MO_TAG
  · by_cases h2 : AV_RB32 p.buf 4 < 0x28
    · simp [h1, h2, hs.symm]
    · by_cases h3 : AV_RB16 p.buf 8 = FORMAT_LENGTH
      · simp [h1, h2, h3]; omega
      · simp [h1, h2, h3, hs.symm]
  · simp [h1, hs.symm]

/-- The big-endian word at offset 0 equals `MO_TAG` exactly when the first four bytes are
the characters 5, C, O, M in that order: the magic read back to front. -/
theorem AV_RB32_eq_MO_TAG_iff (buf : List UInt8) :
    AV_RB32 buf 0 = MO_TAG ↔
      (buf.getD 0 0).toNat = Char.toNat '5' ∧ (buf.getD 1 0).toNat = Char.toNat 'C'
        ∧ (buf.getD 2 0).toNat = Char.toNat 'O' ∧ (buf.getD 3 0).toNat = Char.toNat 'M' := by
  have h0 := (buf.getD 0 0).toNat_lt_size
  have h1 := (buf.getD 1 0).toNat_lt_size
  have h2 := (buf.getD 2 0).toNat_lt_size
  have h3 := (buf.getD 3 0).toNat_lt_size
  have c5 : Char.toNat '5' = 53 := by decide
  have cC : Char.toNat 'C' = 67 := by decide
  have cO : Char.toNat 'O' = 79 := by decide
  have cM : Char.toNat 'M' = 77 := by decide
  simp only [UInt8.size] at h0 h1 h2 h3
  simp only [AV_RB32, MO_TAG_eq, c5, cC, cO, cM, Nat.zero_add]
  constructor
  · intro h; omega
  · intro h; omega

/-- C1 (the code departs from the claim): on the ten bytes M, O, C, 5, a big-endian size
0x28 and the big-endian length marker, the probe returns 0, and on the same bytes with the
magic reversed (5, C, O, M) it returns the score 60. -/
theorem mo_probe_magic_reversed :
    mo_probe ⟨[0x4D, 0x4F, 0x43, 0x35, 0, 0, 0, 0x28, 0x4C, 0x54]⟩ = 0
    ∧ mo_probe ⟨[0x35, 0x43, 0x4F, 0x4D, 0, 0, 0, 0x28, 0x4C, 0x54]⟩
        = AVPROBE_SCORE_EXTENSION + 10
    ∧ AV_RB16 [0x4D, 0x4F, 0x43, 0x35, 0, 0, 0, 0x28, 0x4C, 0x54] 8 = FORMAT_LENGTH
    ∧ 0x28 ≤ AV_RB32 [0x4D, 0x4F, 0x43, 0x35, 0, 0, 0, 0x28, 0x4C, 0x54] 4 := by
  decide

/-! ### Header parser on well-formed chunks -/

theorem chunk_length (hl d n res : Nat) (hd : d < 2 ^ 32) (hn : n < 2 ^ 32)
    (t : List UInt8) (p : Nat) (e : Bool) (wr : List UInt8) (vst ast : AVStream)
    (hp : p + 16 ≤ hl) :
    mo_read_header_chunk hl
      ⟨⟨le16 FORMAT_LENGTH ++ (le16 3 ++ (le32 d ++ (le32 n ++ (le32 res ++ t)))), p, e, wr⟩,
        vst, ast⟩
    = .next ⟨⟨t, p + 16, e, wr⟩,
        { avpriv_set_pts_info vst 1 256 d with duration := n }, { ast with duration := n }⟩ := by
  have h1 : ¬ (p > hl) := by omega
  have h2 : ¬ (p + 2 + 2 + 12 > hl) := by omega
  simp [mo_read_header_chunk, mo_read_header_switch, avio_tell, avio_rl16_le16, avio_rl32_le32 d hd,
    avio_rl32_le32 n hn, avio_skip_le32,
    FORMAT_LENGTH_eq, h1, h2]

theorem chunk_video (hl w h : Nat) (hw : w < 2 ^ 32) (hh : h < 2 ^ 32)
    (t : List UInt8) (p : Nat) (e : Bool) (wr : List UInt8) (vst ast : AVStream)
    (hp : p + 12 ≤ hl) :
    mo_read_header_chunk hl
      ⟨⟨le16 FORMAT_VIDEO ++ (le16 2 ++ (le32 w ++ (le32 h ++ t))), p, e, wr⟩, vst, ast⟩
    = .next ⟨⟨t, p + 12, e, wr⟩,
        { vst with codecpar := { vst.codecpar with width := w, height := h } }, ast⟩ := by
  have h1 : ¬ (p > hl) := by omega
  have h2 : ¬ (p + 2 + 2 + 8 > hl) := by omega
  simp [mo_read_header_chunk, mo_read_header_switch, avio_tell, avio_rl16_le16, avio_rl32_le32 w hw,
    avio_rl32_le32 h hh, FORMAT_LENGTH_eq, FORMAT_VIDEO_eq, h1, h2]

theorem mo_handle_audio_ok (ast : AVStream) (am r c : Nat) (ham : is_audio_marker am)
    (hr : r < 2 ^ 32) (t : List UInt8) (p : Nat) (e : Bool) (wr : List UInt8) :
    ∃ ast1, mo_handle_audio ast am ⟨le32 r ++ (le32 c ++ t), p, e, wr⟩
        = (0, ast1, ⟨t, p + 8, e, wr⟩)
      ∧ ast1.codecpar.sample_rate = r ∧ ast1.duration = ast.duration
      ∧ ast1.codecpar.codec_type = AVMEDIA_TYPE_AUDIO := by
  rcases ham with h | h | h | h | h <;> subst h <;>
    simp [mo_handle_audio, avio_rl32_le32 r hr, avio_skip_le32, avpriv_set_pts_info,
      FORMAT_FASTAUDIO_eq, FORMAT_FASTAUDIO_STEREO_eq, FORMAT_PCM_eq, FORMAT_ADPCM_eq,
      FORMAT_ADPCM_STEREO_eq]

theorem chunk_audio (hl am r c : Nat) (ham : is_audio_marker am) (hr : r < 2 ^ 32)
    (t : List UInt8) (p : Nat) (e : Bool) (wr : List UInt8) (vst ast : AVStream)
    (hp : p + 12 ≤ hl) :
    mo_read_header_chunk hl
      ⟨⟨le16 am ++ (le16 2 ++ (le32 r ++ (le32 c ++ t))), p, e, wr⟩, vst, ast⟩
        = .next ⟨⟨t, p + 12, e, wr⟩, vst,
            (mo_handle_audio ast am ⟨le32 r ++ (le32 c ++ t), p + 4, e, wr⟩).2.1⟩ := by
  have h1 : ¬ (p > hl) := by omega
  have h2 : ¬ (p + 2 + 2 + 8 > hl) := by omega
  have ham16 : am < 65536 := by
    rcases ham with h | h | h | h | h <;> subst h <;> decide
  obtain ⟨ast1, hα, -⟩ := mo_handle_audio_ok ast am r c ham hr t (p + 2 + 2) e wr
  have hnl : am ≠ FORMAT_LENGTH ∧ am ≠ FORMAT_VIDEO ∧ am ≠ FORMAT_RSA
      ∧ am ≠ FORMAT_UNKNOWN_AUDIO := by
    rcases ham with h | h | h | h | h <;> subst h <;> decide
  have ham1 : am = FORMAT_FASTAUDIO ∨ am = FORMAT_FASTAUDIO_STEREO ∨ am = FORMAT_PCM
      ∨ am = FORMAT_ADPCM ∨ am = FORMAT_ADPCM_STEREO := ham
  simp [mo_read_header_chunk, mo_read_header_switch, avio_tell, avio_rl16_le16 am ham16, avio_rl16_le16 2, h1, h2,
    hnl.1, hnl.2.1, hnl.2.2.1, hnl.2.2.2, ham1, hα]

theorem chunk_header_done (hl : Nat)
    (t : List UInt8) (p : Nat) (e : Bool) (wr : List UInt8) (vst ast : AVStream)
    (hp : p + 4 ≤ hl) :
    mo_read_header_chunk hl
      ⟨⟨le16 FORMAT_HEADER_DONE ++ (le16 0 ++ t), p, e, wr⟩, vst, ast⟩
    = .done ⟨⟨t, p + 4, e, wr⟩, vst, ast⟩ := by
  have h1 : ¬ (p > hl) := by omega
  have h2 : ¬ (p + 2 + 2 > hl) := by omega
  simp [mo_read_header_chunk, mo_read_header_switch, avio_tell, avio_rl16_le16, FORMAT_LENGTH_eq, FORMAT_VIDEO_eq,
    FORMAT_RSA_eq, FORMAT_UNKNOWN_AUDIO_eq, FORMAT_FASTAUDIO_eq, FORMAT_FASTAUDIO_STEREO_eq,
    FORMAT_PCM_eq, FORMAT_ADPCM_eq, FORMAT_ADPCM_STEREO_eq, FORMAT_MULTITRACK_eq,
    FORMAT_VORBIS_eq, FORMAT_KEYINDEX_eq, FORMAT_HEADER_DONE_eq, h1, h2]


theorem minimal_header_length (m0 m1 m2 m3 : UInt8) (L d n res w h am r c : Nat) :
    (minimal_header m0 m1 m2 m3 L d n res w h am r c).length = 52 := by
  simp [minimal_header, le16, le32]

theorem mo_read_header_init_le32 (vst ast : AVStream) (m0 m1 m2 m3 : UInt8) (L : Nat)
    (hL : L < 2 ^ 32) (t : List UInt8) (e : Bool) (wr : List UInt8) :
    mo_read_header_init vst ast ⟨m0 :: m1 :: m2 :: m3 :: (le32 L ++ t), 0, e, wr⟩
      = ((L + 8) % 2 ^ 32, ⟨⟨t, 8, e, wr⟩, vst, ast⟩) := by
  simp [mo_read_header_init, avio_skip, avio_rl32_le32 L hL]

/-- C2 (amended): a minimal header (four magic bytes, length field `L`, length chunk with
words `d`, `n` and a reserved word, video chunk with words `w`, `h`, one audio chunk with one
of the five audio markers and words `r`, `c`, header-done chunk) whose extent `L + 8` covers
the header and stays below `2^32` is parsed with result 0 by every run of at least four
iterations; the context then holds exactly two streams, the video one with width `w`, height
`h`, time base `256/d` and duration `n`, the audio one with duration `n` and sample rate
`r`. -/
theorem minimal_header_parses (m0 m1 m2 m3 : UInt8) (L d n res w h am r c : Nat)
    (rest : List UInt8) (hd : d < 2 ^ 32) (hn : n < 2 ^ 32) (hw : w < 2 ^ 32)
    (hh : h < 2 ^ 32) (hr : r < 2 ^ 32) (ham : is_audio_marker am)
    (hsize : (minimal_header m0 m1 m2 m3 L d n res w h am r c).length ≤ L + 8)
    (hL : L + 8 < 2 ^ 32) (k : Nat) (s : AVFormatContext MoDemuxContext)
    (hdata : s.pb.data = minimal_header m0 m1 m2 m3 L d n res w h am r c ++ rest)
    (hpos : s.pb.pos = 0) (hstreams : s.streams = []) :
    ∃ pb vst ast, mo_read_header (k + 4) s = some (0, { s with pb := pb, streams := [vst, ast] })
      ∧ vst.codecpar.width = w ∧ vst.codecpar.height = h
      ∧ vst.time_base = { num := 256, den := d }
      ∧ vst.duration = n ∧ ast.duration = n ∧ ast.codecpar.sample_rate = r := by
  rw [minimal_header_length] at hsize
  obtain ⟨pb, streams, priv⟩ := s
  obtain ⟨data, pos, e, wr⟩ := pb
  simp only at hdata hpos hstreams
  subst hpos hstreams
  have hmod : (L + 8) % 2 ^ 32 = L + 8 := Nat.mod_eq_of_lt hL
  subst hdata
  have hrun : mo_read_header (k + 4)
      ⟨⟨minimal_header m0 m1 m2 m3 L d n res w h am r c ++ rest, 0, e, wr⟩, [], priv⟩
      = some (0, ⟨⟨rest, 52, e, wr⟩,
          [{ codecpar :=
              { codec_type := AVMEDIA_TYPE_VIDEO, codec_id := AV_CODEC_ID_MOBICLIP,
                codec_tag := 0, width := w, height := h, sample_rate := 0,
                ch_layout := { nb_channels := 0 } },
             pts_wrap_bits := 1, time_base := { num := 256, den := d }, duration := n,
             nb_frames := 0, avg_frame_rate := { num := 0, den := 0 } },
           (mo_handle_audio { new_stream with duration := n } am
              ⟨le32 r ++ (le32 c ++ (le16 FORMAT_HEADER_DONE ++ (le16 0 ++ rest))),
                8 + 16 + 12 + 4, e, wr⟩).2.1], priv⟩) := by
    simp only [mo_read_header, avformat_new_stream, minimal_header, List.append_assoc,
      List.cons_append, List.nil_append]
    rw [mo_read_header_init_le32 _ _ _ _ _ _ L (by omega), hmod]
    simp only [mo_read_header_loop]
    rw [chunk_length (L + 8) d n res hd hn _ 8 e wr _ _ (by omega)]
    simp only []
    rw [chunk_video (L + 8) w h hw hh _ (8 + 16) e wr _ _ (by omega)]
    simp only []
    rw [chunk_audio (L + 8) am r c ham hr _ (8 + 16 + 12) e wr _ _ (by omega)]
    simp only []
    rw [chunk_header_done (L + 8) rest (8 + 16 + 12 + 12) e wr _ _ (by omega)]
    rfl
  obtain ⟨ast1, hα, hsr, hdur, -⟩ := mo_handle_audio_ok
    { new_stream with duration := n } am r c ham hr
    (le16 FORMAT_HEADER_DONE ++ (le16 0 ++ rest)) (8 + 16 + 12 + 4) e wr
  rw [hα] at hrun
  exact ⟨_, _, _, hrun, rfl, rfl, rfl, rfl, by simpa using hdur, hsr⟩

theorem minimal_header_parses_witness :
    ∃ pb vst ast, mo_read_header (0 + 4)
        (demux_open (minimal_header 77 79 67 53 44 7680 100 0 320 240 FORMAT_PCM 32000 2 ++ []))
        = some (0, { demux_open
            (minimal_header 77 79 67 53 44 7680 100 0 320 240 FORMAT_PCM 32000 2 ++ []) with
            pb := pb, streams := [vst, ast] })
      ∧ vst.codecpar.width = 320 ∧ vst.codecpar.height = 240
      ∧ vst.time_base = { num := 256, den := 7680 }
      ∧ vst.duration = 100 ∧ ast.duration = 100 ∧ ast.codecpar.sample_rate = 32000 :=
  minimal_header_parses 77 79 67 53 44 7680 100 0 320 240 FORMAT_PCM 32000 2 []
    (by decide) (by decide) (by decide) (by decide) (by decide) (by decide) (by decide)
    (by decide) 0 _ rfl rfl rfl

/-- C2 as stated fails: with the length field `L = 0xFFFFFFFF` the sum `L + 8` exceeds the
size of the minimal header, yet the 32-bit header extent wraps to 7 and the parser returns
`AVERROR_EOF` instead of 0. -/
theorem minimal_header_length_field_wraps :
    (minimal_header 77 79 67 53 0xFFFFFFFF 7680 100 0 320 240 FORMAT_PCM 32000 2).length
        ≤ 0xFFFFFFFF + 8
    ∧ is_audio_marker FORMAT_PCM
    ∧ (mo_read_header 4
        (demux_open (minimal_header 77 79 67 53 0xFFFFFFFF 7680 100 0 320 240 FORMAT_PCM
          32000 2))).map Prod.fst = some AVERROR_EOF
    ∧ AVERROR_EOF ≠ 0 := by
  decide

/-! ### Header builder -/

theorem rsa_key_length : rsa_key.length = 160 := by simp [rsa_key]

/-- A configuration on which `mo_write_header` returns 0 has exactly two streams, and
neither of the two rejecting conditions of the source holds. -/
theorem mo_write_header_accept (s : AVFormatContext MoMuxContext)
    (h : (mo_write_header s).1 = 0) :
    ∃ v a, s.streams = [v, a]
      ∧ ¬ (v.codecpar.codec_type ≠ AVMEDIA_TYPE_VIDEO
            ∧ v.codecpar.codec_id ≠ AV_CODEC_ID_MOBICLIP)
      ∧ ¬ (a.codecpar.codec_type ≠ AVMEDIA_TYPE_AUDIO
            ∧ a.codecpar.codec_id ≠ AV_CODEC_ID_PCM_S16LE) := by
  obtain ⟨pb, streams, priv⟩ := s
  have hne : AVERROR_STREAM_NOT_FOUND ≠ 0 := by decide
  have hne2 : AVERROR_PATCHWELCOME ≠ 0 := by decide
  match streams, h with
  | [], h => exact absurd h hne
  | [_], h => exact absurd h hne
  | _ :: _ :: _ :: _, h => exact absurd h hne
  | [v, a], h =>
    refine ⟨v, a, rfl, ?_, ?_⟩
    · intro hv
      simp only [mo_write_header] at h
      rw [if_pos hv] at h
      exact hne h
    · intro ha
      by_cases hv : v.codecpar.codec_type ≠ AVMEDIA_TYPE_VIDEO
            ∧ v.codecpar.codec_id ≠ AV_CODEC_ID_MOBICLIP
      · simp only [mo_write_header] at h
        rw [if_pos hv] at h
        exact hne h
      · simp only [mo_write_header] at h
        rw [if_neg hv, if_pos ha] at h
        exact hne2 h

/-- What `mo_write_header` does on a configuration it accepts. -/
theorem mo_write_header_emits (s : AVFormatContext MoMuxContext) (v a : AVStream)
    (hs : s.streams = [v, a])
    (hv : ¬ (v.codecpar.codec_type ≠ AVMEDIA_TYPE_VIDEO
            ∧ v.codecpar.codec_id ≠ AV_CODEC_ID_MOBICLIP))
    (ha : ¬ (a.codecpar.codec_type ≠ AVMEDIA_TYPE_AUDIO
            ∧ a.codecpar.codec_id ≠ AV_CODEC_ID_PCM_S16LE)) :
    mo_write_header s = (0, { s with
      pb := { s.pb with
        written := s.pb.written ++ expected_header v.avg_frame_rate.num v.nb_frames
          v.codecpar.width v.codecpar.height a.codecpar.sample_rate
          a.codecpar.ch_layout.nb_channels,
        pos := s.pb.pos + 216 },
      priv_data := { s.priv_data with header_size := 216 } }) := by
  obtain ⟨pb, streams, priv⟩ := s
  simp only at hs
  subst hs
  have hk : rsa_key.take 160 = rsa_key := List.take_of_length_le (by rw [rsa_key_length])
  simp only [mo_write_header]
  rw [if_neg hv, if_neg ha]
  simp only [avio_wl32, avio_wl16, avio_w8, avio_write, hk, rsa_key_length,
    expected_header, tlv_chunk, le16, le32, List.append_assoc, List.cons_append,
    List.nil_append, MO_TAG_eq]
  simp
  decide

theorem expected_header_length (num nb_frames width height sample_rate nb_channels : Nat) :
    (expected_header num nb_frames width height sample_rate nb_channels).length = 216 := by
  simp [expected_header, tlv_chunk, le16, le32, rsa_key_length]

/-- C7: with a stream count other than two, `mo_write_header` returns the (negative) error
`AVERROR_STREAM_NOT_FOUND`, leaves the context as it was and writes no byte to the sink. -/
theorem mo_write_header_stream_count (s : AVFormatContext MoMuxContext)
    (h : s.streams.length ≠ 2) :
    (mo_write_header s).1 = AVERROR_STREAM_NOT_FOUND ∧ (mo_write_header s).1 < 0
      ∧ (mo_write_header s).2 = s ∧ (mo_write_header s).2.pb.written = s.pb.written := by
  obtain ⟨pb, streams, priv⟩ := s
  have hneg : AVERROR_STREAM_NOT_FOUND < 0 := by decide
  match streams, h with
  | [], _ => exact ⟨rfl, hneg, rfl, rfl⟩
  | [_], _ => exact ⟨rfl, hneg, rfl, rfl⟩
  | _ :: _ :: _ :: _, _ => exact ⟨rfl, hneg, rfl, rfl⟩
  | [_, _], h => exact absurd rfl h

theorem mo_write_header_stream_count_witness :
    (mo_write_header (mux_config
        [mk_stream AVMEDIA_TYPE_VIDEO AV_CODEC_ID_MOBICLIP 320 240 0 0 100 30])).1
      = AVERROR_STREAM_NOT_FOUND
    ∧ (mo_write_header (mux_config
        [mk_stream AVMEDIA_TYPE_VIDEO AV_CODEC_ID_MOBICLIP 320 240 0 0 100 30])).1 < 0
    ∧ (mo_write_header (mux_config
        [mk_stream AVMEDIA_TYPE_VIDEO AV_CODEC_ID_MOBICLIP 320 240 0 0 100 30])).2
      = mux_config [mk_stream AVMEDIA_TYPE_VIDEO AV_CODEC_ID_MOBICLIP 320 240 0 0 100 30]
    ∧ (mo_write_header (mux_config
        [mk_stream AVMEDIA_TYPE_VIDEO AV_CODEC_ID_MOBICLIP 320 240 0 0 100 30])).2.pb.written
      = (mux_config
        [mk_stream AVMEDIA_TYPE_VIDEO AV_CODEC_ID_MOBICLIP 320 240 0 0 100 30]).pb.written :=
  mo_write_header_stream_count
    (mux_config [mk_stream AVMEDIA_TYPE_VIDEO AV_CODEC_ID_MOBICLIP 320 240 0 0 100 30])
    (by decide)

set_option maxRecDepth 20000 in
/-- C8 (the code departs from the claim): for a video stream whose codec is not Mobiclip
and an audio stream whose codec is not PCM S16LE, `mo_write_header` returns 0 and writes
216 bytes to the sink. -/
theorem mo_write_header_accepts_other_codecs :
    (mo_write_header other_codecs_config).1 = 0
    ∧ (mo_write_header other_codecs_config).2.pb.written.length = 216
    ∧ (other_codecs_config.streams.map (fun st => st.codecpar.codec_id))
        = [AV_CODEC_ID_OTHER 27, AV_CODEC_ID_OTHER 86017] := by
  decide

set_option maxRecDepth 20000 in
/-- C9 (the code departs from the claim): on an accepted configuration the header-length
field, bytes 4..7 of the output, holds 0, while 216 bytes were written and `header_size`
ends at 216. -/
theorem mo_write_header_length_field_zero :
    (mo_write_header mobiclip_pcm_config).1 = 0
    ∧ ((mo_write_header mobiclip_pcm_config).2.pb.written.drop 4).take 4 = [0, 0, 0, 0]
    ∧ (mo_write_header mobiclip_pcm_config).2.pb.written.length = 216
    ∧ (mo_write_header mobiclip_pcm_config).2.priv_data.header_size = 216 := by
  decide

/-- C10: on every accepted configuration `mo_write_header` appends to the sink exactly the
magic M, O, C, 5, a 32-bit length field, the chunk TL with word count 3 and the words
`avg_frame_rate.num * 256`, `nb_frames`, 0, the chunk V2 with word count 2 and the words
width, height, the chunk pc with word count 40 and the 160 constant bytes, the chunk AP with
word count 2 and the words sample rate, channel count, and the chunk HE with word count 0;
every payload is four times its word count long, the output is 216 bytes long and
`header_size` ends at 216. -/
theorem mo_write_header_layout (s : AVFormatContext MoMuxContext)
    (h : (mo_write_header s).1 = 0) :
    ∃ v a, s.streams = [v, a]
      ∧ (mo_write_header s).2.pb.written
          = s.pb.written
            ++ ([UInt8.ofNat (Char.toNat 'M'), UInt8.ofNat (Char.toNat 'O'),
                  UInt8.ofNat (Char.toNat 'C'), UInt8.ofNat (Char.toNat '5')]
                ++ le32 0
                ++ tlv_chunk 'T' 'L' 3
                    (le32 (v.avg_frame_rate.num * 256) ++ le32 v.nb_frames ++ le32 0)
                ++ tlv_chunk 'V' '2' 2 (le32 v.codecpar.width ++ le32 v.codecpar.height)
                ++ tlv_chunk 'p' 'c' 40 rsa_key
                ++ tlv_chunk 'A' 'P' 2
                    (le32 a.codecpar.sample_rate ++ le32 a.codecpar.ch_layout.nb_channels)
                ++ tlv_chunk 'H' 'E' 0 [])
      ∧ (le32 (v.avg_frame_rate.num * 256) ++ le32 v.nb_frames ++ le32 0).length = 3 * 4
      ∧ (le32 v.codecpar.width ++ le32 v.codecpar.height).length = 2 * 4
      ∧ rsa_key.length = 40 * 4
      ∧ (le32 a.codecpar.sample_rate ++ le32 a.codecpar.ch_layout.nb_channels).length = 2 * 4
      ∧ (mo_write_header s).2.pb.written.length = s.pb.written.length + 216
      ∧ (mo_write_header s).2.priv_data.header_size = 216 := by
  obtain ⟨v, a, hs, hv, ha⟩ := mo_write_header_accept s h
  refine ⟨v, a, hs, ?_, by simp [le32], by simp [le32], rsa_key_length, by simp [le32], ?_, ?_⟩
  · rw [mo_write_header_emits s v a hs hv ha]
    rfl
  · rw [mo_write_header_emits s v a hs hv ha]
    simp [expected_header_length]
  · rw [mo_write_header_emits s v a hs hv ha]

theorem mo_write_header_layout_witness :
    ∃ v a, mobiclip_pcm_config.streams = [v, a]
      ∧ (mo_write_header mobiclip_pcm_config).2.pb.written
          = mobiclip_pcm_config.pb.written
            ++ ([UInt8.ofNat (Char.toNat 'M'), UInt8.ofNat (Char.toNat 'O'),
                  UInt8.ofNat (Char.toNat 'C'), UInt8.ofNat (Char.toNat '5')]
                ++ le32 0
                ++ tlv_chunk 'T' 'L' 3
                    (le32 (v.avg_frame_rate.num * 256) ++ le32 v.nb_frames ++ le32 0)
                ++ tlv_chunk 'V' '2' 2 (le32 v.codecpar.width ++ le32 v.codecpar.height)
                ++ tlv_chunk 'p' 'c' 40 rsa_key
                ++ tlv_chunk 'A' 'P' 2
                    (le32 a.codecpar.sample_rate ++ le32 a.codecpar.ch_layout.nb_channels)
                ++ tlv_chunk 'H' 'E' 0 [])
      ∧ (le32 (v.avg_frame_rate.num * 256) ++ le32 v.nb_frames ++ le32 0).length = 3 * 4
      ∧ (le32 v.codecpar.width ++ le32 v.codecpar.height).length = 2 * 4
      ∧ rsa_key.length = 40 * 4
      ∧ (le32 a.codecpar.sample_rate ++ le32 a.codecpar.ch_layout.nb_channels).length = 2 * 4
      ∧ (mo_write_header mobiclip_pcm_config).2.pb.written.length
          = mobiclip_pcm_config.pb.written.length + 216
      ∧ (mo_write_header mobiclip_pcm_config).2.priv_data.header_size = 216 :=
  mo_write_header_layout mobiclip_pcm_config (by decide)

set_option maxRecDepth 20000 in
/-- C3 (the code departs from the claim): `mo_write_header` accepts the configuration
(Mobiclip video 320x240, 100 frames; PCM audio at 32000 Hz), yet `mo_read_header` run on
exactly the 216 bytes it emitted returns `AVERROR_EOF`, with no width, height, duration or
sample rate read back. -/
theorem mo_read_header_rejects_written_header :
    (mo_write_header mobiclip_pcm_config).1 = 0
    ∧ (mo_read_header 8 (demux_open (mo_write_header mobiclip_pcm_config).2.pb.written)).map
        Prod.fst = some AVERROR_EOF
    ∧ (mo_read_header 8 (demux_open (mo_write_header mobiclip_pcm_config).2.pb.written)).map
        (fun r => r.2.streams.map (fun st =>
          (st.codecpar.width, st.codecpar.height, st.duration, st.codecpar.sample_rate)))
        = some [(0, 0, 0, 0), (0, 0, 0, 0)]
    ∧ AVERROR_EOF ≠ 0 := by
  decide

/-! ### Packet demuxer -/

theorem u32_sub_sub_chunk (v a : Nat) (h : v + a + 8 < 2 ^ 32) :
    u32_sub (u32_sub (v + a + 8) v) 8 = a := by
  unfold u32_sub; omega

theorem unknown_size_eq (x : Nat) :
    u32_sub (u32_sub (u32_add (u32 x) 4) (u32 x % 4)) (u32 x) = padding_size x := by
  unfold u32_sub u32_add u32 padding_size; omega

theorem mo_read_packet_video (s : AVFormatContext MoDemuxContext) (pkt : AVPacket)
    (video t : List UInt8) (a p : Nat) (wr : List UInt8)
    (hflag : s.priv_data.handle_audio_packet = 0)
    (hpb : s.pb = ⟨le32 (video.length + a + 8) ++ (le32 video.length ++ (video ++ t)), p,
      false, wr⟩)
    (hsize : video.length + a + 8 < 2 ^ 32) :
    mo_read_packet s pkt
      = ((video.length : Int), { data := video, stream_index := 0 },
          { s with
            pb := ⟨t, p + 8 + video.length, false, wr⟩,
            priv_data :=
              { handle_audio_packet := 1, audio_size := a,
                unknown_size := padding_size (p + 8 + video.length + a) } }) := by
  obtain ⟨pb, streams, ⟨flag, asz, usz⟩⟩ := s
  simp only at hflag hpb
  subst hflag hpb
  have hv : video.length < 2 ^ 32 := by omega
  have hnn : ¬ ((video.length : Int) < 0) := by omega
  simp only [mo_read_packet, avio_rl32_le32 _ hsize, avio_rl32_le32 _ hv, avio_tell,
    u32_sub_sub_chunk _ _ hsize, unknown_size_eq, av_get_packet, avio_feof, ne_eq,
    not_true_eq_false, if_false, List.length_append, Nat.le_add_right, if_true, hnn,
    List.take_left, List.drop_left, Bool.false_eq_true]

theorem mo_read_packet_audio (s : AVFormatContext MoDemuxContext) (pkt : AVPacket)
    (audio pad t : List UInt8) (p : Nat) (wr : List UInt8)
    (hflag : s.priv_data.handle_audio_packet = 1)
    (ha : s.priv_data.audio_size = audio.length)
    (hu : s.priv_data.unknown_size = pad.length)
    (hpb : s.pb = ⟨audio ++ (pad ++ t), p, false, wr⟩) :
    mo_read_packet s pkt
      = ((audio.length : Int), { data := audio, stream_index := 1 },
          { s with
            pb := ⟨t, p + audio.length + pad.length, false, wr⟩,
            priv_data := { s.priv_data with handle_audio_packet := 0 } }) := by
  obtain ⟨pb, streams, ⟨flag, asz, usz⟩⟩ := s
  simp only at hflag hpb ha hu
  subst hflag hpb ha hu
  have hnn : ¬ ((audio.length : Int) < 0) := by omega
  simp only [mo_read_packet, av_get_packet, avio_feof, avio_skip, ne_eq, one_ne_zero,
    not_false_eq_true, if_true, List.length_append, Nat.le_add_right, hnn, if_false,
    List.take_left, List.drop_left, Bool.false_eq_true]

theorem read_packets_chunks (cs : List MoChunk) :
    ∀ (s : AVFormatContext MoDemuxContext) (pkt : AVPacket) (rest : List UInt8),
      s.priv_data.handle_audio_packet = 0 → s.pb.eof_reached = false →
      s.pb.data = stream_bytes cs ++ rest → chunks_well_formed s.pb.pos cs = true →
      (read_packets (2 * cs.length) s pkt).1 = expected_packets cs
      ∧ (read_packets (2 * cs.length) s pkt).2.priv_data.handle_audio_packet = 0
      ∧ (read_packets (2 * cs.length) s pkt).2.pb.data = rest
      ∧ (read_packets (2 * cs.length) s pkt).2.pb.pos = s.pb.pos + (stream_bytes cs).length := by
  induction cs with
  | nil =>
    intro s pkt rest hflag _ hdata _
    simp only [stream_bytes, List.nil_append] at hdata
    exact ⟨rfl, hflag, hdata, rfl⟩
  | cons c cs ih =>
    intro s pkt rest hflag heof hdata hwf
    obtain ⟨⟨data, p, e, wr⟩, streams, priv⟩ := s
    simp only at hflag heof hdata
    subst heof hdata
    simp only [chunks_well_formed, Bool.and_eq_true, decide_eq_true_eq] at hwf
    obtain ⟨⟨hsize, hpad⟩, hwf⟩ := hwf
    have h2 : 2 * (c :: cs).length = 2 * cs.length + 1 + 1 := by
      simp only [List.length_cons]; omega
    have hv := mo_read_packet_video
      ⟨⟨stream_bytes (c :: cs) ++ rest, p, false, wr⟩, streams, priv⟩ pkt c.video
      (c.audio ++ (c.padding ++ (stream_bytes cs ++ rest))) c.audio.length p wr hflag
      (by simp [stream_bytes, chunk_bytes]) hsize
    have ha := mo_read_packet_audio
      { (⟨⟨stream_bytes (c :: cs) ++ rest, p, false, wr⟩, streams, priv⟩ :
          AVFormatContext MoDemuxContext) with
        pb := ⟨c.audio ++ (c.padding ++ (stream_bytes cs ++ rest)), p + 8 + c.video.length,
          false, wr⟩,
        priv_data :=
          { handle_audio_packet := 1, audio_size := c.audio.length,
            unknown_size := padding_size (p + 8 + c.video.length + c.audio.length) } }
      pkt c.audio c.padding (stream_bytes cs ++ rest) (p + 8 + c.video.length) wr rfl rfl
      hpad.symm rfl
    have hlen : (chunk_bytes c).length
        = 8 + c.video.length + c.audio.length + c.padding.length := by
      simp [chunk_bytes, le32]; omega
    have hih := ih
      ⟨⟨stream_bytes cs ++ rest, p + 8 + c.video.length + c.audio.length + c.padding.length,
          false, wr⟩, streams,
        { handle_audio_packet := 0, audio_size := c.audio.length,
          unknown_size := padding_size (p + 8 + c.video.length + c.audio.length) }⟩
      pkt rest rfl rfl rfl (by
        have : p + 8 + c.video.length + c.audio.length + c.padding.length
            = p + (chunk_bytes c).length := by omega
        simp only [this]; exact hwf)
    rw [h2]
    simp only [read_packets, hv, ha, expected_packets]
    obtain ⟨h1, h2, h3, h4⟩ := hih
    refine ⟨?_, h2, h3, ?_⟩
    · rw [h1]
    · rw [h4]
      simp only [stream_bytes, List.length_append, hlen]
      omega

theorem expected_packets_indices (cs : List MoChunk) :
    (expected_packets cs).map (fun r => r.2.stream_index) = alternating_indices cs.length
    ∧ (expected_packets cs).length = 2 * cs.length := by
  induction cs with
  | nil => exact ⟨rfl, rfl⟩
  | cons c cs ih =>
    simp only [expected_packets, List.map_cons, alternating_indices, List.length_cons, ih.1,
      ih.2, true_and]
    omega

/-- C4: from a state with `handle_audio_packet = 0` and no end of stream signalled, on a
stream of `N` well-formed chunks (chunk size, video size, video payload, audio payload,
padding as the padding formula gives it), `2N` successive calls of `mo_read_packet` return,
in this order, for every chunk its video payload on stream 0 (the call returning the video
size) and then its audio payload on stream 1 (the call returning the audio size): the
stream indices are 0,1,0,1,...,0,1. -/
theorem mo_read_packet_alternates (cs : List MoChunk) (s : AVFormatContext MoDemuxContext)
    (pkt : AVPacket) (rest : List UInt8)
    (hflag : s.priv_data.handle_audio_packet = 0) (heof : s.pb.eof_reached = false)
    (hdata : s.pb.data = stream_bytes cs ++ rest)
    (hwf : chunks_well_formed s.pb.pos cs = true) :
    (read_packets (2 * cs.length) s pkt).1 = expected_packets cs
    ∧ (read_packets (2 * cs.length) s pkt).1.length = 2 * cs.length
    ∧ (read_packets (2 * cs.length) s pkt).1.map (fun r => r.2.stream_index)
        = alternating_indices cs.length := by
  have h := (read_packets_chunks cs s pkt rest hflag heof hdata hwf).1
  rw [h]
  exact ⟨rfl, (expected_packets_indices cs).2, (expected_packets_indices cs).1⟩

theorem mo_read_packet_alternates_witness :
    (read_packets (2 * [(⟨[1, 2, 3], [4, 5], [0, 0, 0]⟩ : MoChunk), ⟨[], [], [0, 0, 0, 0]⟩].length)
        (demux_open (stream_bytes [⟨[1, 2, 3], [4, 5], [0, 0, 0]⟩, ⟨[], [], [0, 0, 0, 0]⟩]
          ++ [])) ⟨[], 0⟩).1
      = expected_packets [⟨[1, 2, 3], [4, 5], [0, 0, 0]⟩, ⟨[], [], [0, 0, 0, 0]⟩]
    ∧ (read_packets (2 * [(⟨[1, 2, 3], [4, 5], [0, 0, 0]⟩ : MoChunk), ⟨[], [], [0, 0, 0, 0]⟩].length)
        (demux_open (stream_bytes [⟨[1, 2, 3], [4, 5], [0, 0, 0]⟩, ⟨[], [], [0, 0, 0, 0]⟩]
          ++ [])) ⟨[], 0⟩).1.length
      = 2 * [(⟨[1, 2, 3], [4, 5], [0, 0, 0]⟩ : MoChunk), ⟨[], [], [0, 0, 0, 0]⟩].length
    ∧ (read_packets (2 * [(⟨[1, 2, 3], [4, 5], [0, 0, 0]⟩ : MoChunk), ⟨[], [], [0, 0, 0, 0]⟩].length)
        (demux_open (stream_bytes [⟨[1, 2, 3], [4, 5], [0, 0, 0]⟩, ⟨[], [], [0, 0, 0, 0]⟩]
          ++ [])) ⟨[], 0⟩).1.map (fun r => r.2.stream_index)
      = alternating_indices
          [(⟨[1, 2, 3], [4, 5], [0, 0, 0]⟩ : MoChunk), ⟨[], [], [0, 0, 0, 0]⟩].length :=
  mo_read_packet_alternates [⟨[1, 2, 3], [4, 5], [0, 0, 0]⟩, ⟨[], [], [0, 0, 0, 0]⟩]
    (demux_open (stream_bytes [⟨[1, 2, 3], [4, 5], [0, 0, 0]⟩, ⟨[], [], [0, 0, 0, 0]⟩] ++ []))
    ⟨[], 0⟩ [] rfl rfl rfl (by decide)

/-! ### Chunk scan -/

theorem mo_read_header_eq (fuel : Nat) (s : AVFormatContext MoDemuxContext) :
    mo_read_header fuel s
      = (mo_read_header_loop fuel (mo_read_header_start s).1 (mo_read_header_start s).2).map
          (fun r => (r.1, { s with pb := r.2.pb, streams := s.streams ++ [r.2.vst, r.2.ast] })) := by
  simp only [mo_read_header, avformat_new_stream, mo_read_header_start, new_video_stream]
  cases mo_read_header_loop fuel _ _ <;> rfl

theorem mo_read_header_loop_scan (k : Nat) :
    ∀ (n hl : Nat) (st0 st : HeaderState), mo_read_header_scan k hl st0 = some st →
      mo_read_header_loop (k + n) hl st0 = mo_read_header_loop n hl st := by
  induction k with
  | zero =>
    intro n hl st0 st h
    simp only [mo_read_header_scan, Option.some.injEq] at h
    subst h
    simp
  | succ k ih =>
    intro n hl st0 st h
    have e : k + 1 + n = (k + n) + 1 := by omega
    rw [e]
    simp only [mo_read_header_scan] at h
    simp only [mo_read_header_loop]
    cases hc : mo_read_header_chunk hl st0 with
    | next st1 =>
      rw [hc] at h
      exact ih n hl st1 st h
    | done st1 => rw [hc] at h; simp at h
    | exhausted st1 => rw [hc] at h; simp at h
    | failed err st1 => rw [hc] at h; simp at h

theorem chunk_unsupported (hl m w : Nat) (hm : m = FORMAT_MULTITRACK ∨ m = FORMAT_VORBIS)
    (hw : w < 65536) (st : HeaderState) (t : List UInt8)
    (hdata : st.pb.data = le16 m ++ (le16 w ++ t)) (hext : st.pb.pos + 4 + 4 * w ≤ hl) :
    mo_read_header_chunk hl st
      = .failed AVERROR_PATCHWELCOME
          { st with pb := { st.pb with data := t, pos := st.pb.pos + 2 + 2 } } := by
  obtain ⟨⟨data, p, e, wr⟩, vst, ast⟩ := st
  simp only at hdata hext
  subst hdata
  have h1 : ¬ (p > hl) := by omega
  have h2 : ¬ (p + 2 + 2 + w * 4 % 2 ^ 16 > hl) := by omega
  have hm16 : m < 65536 := by
    rcases hm with h | h <;> subst h <;> decide
  have hn : m ≠ FORMAT_LENGTH ∧ m ≠ FORMAT_VIDEO ∧ m ≠ FORMAT_RSA ∧ m ≠ FORMAT_UNKNOWN_AUDIO
      ∧ ¬ (m = FORMAT_FASTAUDIO ∨ m = FORMAT_FASTAUDIO_STEREO ∨ m = FORMAT_PCM
        ∨ m = FORMAT_ADPCM ∨ m = FORMAT_ADPCM_STEREO) := by
    rcases hm with h | h <;> subst h <;> decide
  simp only [mo_read_header_chunk, mo_read_header_switch, avio_tell, avio_rl16_le16 _ hm16, avio_rl16_le16 w hw,
    if_neg h1, if_neg h2, if_neg hn.1, if_neg hn.2.1, if_neg hn.2.2.1, if_neg hn.2.2.2.1,
    if_neg hn.2.2.2.2]
  rcases hm with h | h
  · rw [if_pos h]
  · have h3 : m ≠ FORMAT_MULTITRACK := by subst h; decide
    rw [if_neg h3, if_pos h]

/-- C6: if the chunk scan of `mo_read_header` reaches, with the header-done marker not yet
seen, a chunk whose marker is multitrack (A, M) or embedded secondary codec (A, V) and whose
declared extent (4 bytes of chunk header and `4 * w` bytes of payload) lies within the header
extent, then every run with enough iterations returns `AVERROR_PATCHWELCOME`; a header on
which the loop leaves through one of its two breaks, the terminator not reached, returns
`AVERROR_EOF`, and the two results differ. -/
theorem unsupported_marker_patchwelcome (s : AVFormatContext MoDemuxContext) (k : Nat)
    (st : HeaderState) (m w : Nat) (t : List UInt8)
    (hreach : mo_read_header_scan k (mo_read_header_start s).1 (mo_read_header_start s).2
      = some st)
    (hm : m = FORMAT_MULTITRACK ∨ m = FORMAT_VORBIS) (hw : w < 65536)
    (hdata : st.pb.data = le16 m ++ le16 w ++ t)
    (hext : st.pb.pos + 4 + 4 * w ≤ (mo_read_header_start s).1)
    (fuel : Nat) (hfuel : k < fuel)
    (s2 : AVFormatContext MoDemuxContext) (k2 : Nat) (st2 st3 : HeaderState)
    (hreach2 : mo_read_header_scan k2 (mo_read_header_start s2).1 (mo_read_header_start s2).2
      = some st2)
    (hbreak : mo_read_header_chunk (mo_read_header_start s2).1 st2 = .exhausted st3)
    (fuel2 : Nat) (hfuel2 : k2 < fuel2) :
    (mo_read_header fuel s).map Prod.fst = some AVERROR_PATCHWELCOME
    ∧ (mo_read_header fuel2 s2).map Prod.fst = some AVERROR_EOF
    ∧ AVERROR_PATCHWELCOME ≠ AVERROR_EOF := by
  refine ⟨?_, ?_, by decide⟩
  · obtain ⟨n, rfl⟩ : ∃ n, fuel = k + (n + 1) := ⟨fuel - k - 1, by omega⟩
    rw [List.append_assoc] at hdata
    have h1 := chunk_unsupported _ m w hm hw st t hdata hext
    rw [mo_read_header_eq, mo_read_header_loop_scan k _ _ _ _ hreach]
    simp [mo_read_header_loop, h1]
  · obtain ⟨n, rfl⟩ : ∃ n, fuel2 = k2 + (n + 1) := ⟨fuel2 - k2 - 1, by omega⟩
    rw [mo_read_header_eq, mo_read_header_loop_scan k2 _ _ _ _ hreach2]
    simp [mo_read_header_loop, hbreak]

theorem unsupported_marker_patchwelcome_witness :
    (mo_read_header 1 (demux_open [0x4D, 0x4F, 0x43, 0x35, 56, 0, 0, 0, 0x41, 0x4D, 0, 0])).map
        Prod.fst = some AVERROR_PATCHWELCOME
    ∧ (mo_read_header 1 (demux_open [0x4D, 0x4F, 0x43, 0x35, 0, 0, 0, 0, 0x54, 0x4C, 3, 0])).map
        Prod.fst = some AVERROR_EOF
    ∧ AVERROR_PATCHWELCOME ≠ AVERROR_EOF :=
  unsupported_marker_patchwelcome
    (demux_open [0x4D, 0x4F, 0x43, 0x35, 56, 0, 0, 0, 0x41, 0x4D, 0, 0]) 0
    (mo_read_header_start
      (demux_open [0x4D, 0x4F, 0x43, 0x35, 56, 0, 0, 0, 0x41, 0x4D, 0, 0])).2
    FORMAT_MULTITRACK 0 [] rfl (Or.inl rfl) (by decide) (by decide) (by decide) 1 (by decide)
    (demux_open [0x4D, 0x4F, 0x43, 0x35, 0, 0, 0, 0, 0x54, 0x4C, 3, 0]) 0
    (mo_read_header_start
      (demux_open [0x4D, 0x4F, 0x43, 0x35, 0, 0, 0, 0, 0x54, 0x4C, 3, 0])).2
    { (mo_read_header_start
        (demux_open [0x4D, 0x4F, 0x43, 0x35, 0, 0, 0, 0, 0x54, 0x4C, 3, 0])).2 with
      pb := { data := [], pos := 12, eof_reached := false, written := [] } }
    rfl (by decide) 1 (by decide)

/-! ### Closed forms of the stream reads -/
theorem avio_rl16_eq (pb : AVIOContext) :
    avio_rl16 pb = (rd16 pb.data,
      { pb with data := pb.data.drop 2, pos := pb.pos + min 2 pb.data.length,
                eof_reached := pb.eof_reached || decide (pb.data.length < 2) }) := by
  obtain ⟨data, p, e, wr⟩ := pb
  match data with
  | [] => simp [avio_rl16, avio_r8, rd16]
  | [b] => simp [avio_rl16, avio_r8, rd16]
  | b0 :: b1 :: t => simp [avio_rl16, avio_r8, rd16]

theorem avio_rl32_eq (pb : AVIOContext) :
    avio_rl32 pb = (rd32 pb.data,
      { pb with data := pb.data.drop 4, pos := pb.pos + min 4 pb.data.length,
                eof_reached := pb.eof_reached || decide (pb.data.length < 4) }) := by
  obtain ⟨data, p, e, wr⟩ := pb
  simp only [avio_rl32, avio_rl16_eq, rd32, List.drop_drop, List.length_drop]
  refine Prod.ext rfl ?_
  simp only [AVIOContext.mk.injEq, true_and]
  refine ⟨?_, ?_⟩
  · omega
  · by_cases h2 : data.length < 2 <;> by_cases h4 : data.length < 4 <;>
      simp [h2, h4] <;> omega

/-! ### The chunk loop under a shift of the position -/
theorem avio_rl16_shift (delta : Nat) (pb : AVIOContext) :
    avio_rl16 (shift_pb delta pb) = ((avio_rl16 pb).1, shift_pb delta (avio_rl16 pb).2) := by
  simp only [avio_rl16_eq, shift_pb, Prod.mk.injEq, AVIOContext.mk.injEq, true_and, and_true]
  omega

theorem avio_rl32_shift (delta : Nat) (pb : AVIOContext) :
    avio_rl32 (shift_pb delta pb) = ((avio_rl32 pb).1, shift_pb delta (avio_rl32 pb).2) := by
  simp only [avio_rl32_eq, shift_pb, Prod.mk.injEq, AVIOContext.mk.injEq, true_and, and_true]
  omega

theorem avio_skip_shift (delta n : Nat) (pb : AVIOContext) :
    avio_skip (shift_pb delta pb) n = shift_pb delta (avio_skip pb n) := by
  simp only [avio_skip, shift_pb, AVIOContext.mk.injEq, true_and, and_true]
  omega

theorem mo_handle_audio_shift (delta : Nat) (ast : AVStream) (m : Nat) (pb : AVIOContext) :
    mo_handle_audio ast m (shift_pb delta pb)
      = ((mo_handle_audio ast m pb).1, (mo_handle_audio ast m pb).2.1,
          shift_pb delta (mo_handle_audio ast m pb).2.2) := by
  simp only [mo_handle_audio, avio_rl32_shift, avio_skip_shift]
  split_ifs <;> rfl

theorem mo_read_header_switch_shift (delta m fl : Nat) (st : HeaderState) :
    mo_read_header_switch m fl (shift_state delta st)
      = shift_outcome delta (mo_read_header_switch m fl st) := by
  unfold mo_read_header_switch
  simp only [shift_state, avio_rl32_shift, avio_skip_shift, mo_handle_audio_shift]
  simp only [apply_ite (shift_outcome delta)]
  simp only [shift_outcome, shift_state]

theorem mo_read_header_chunk_shift (delta hl : Nat) (st : HeaderState) :
    mo_read_header_chunk (hl + delta) (shift_state delta st)
      = shift_outcome delta (mo_read_header_chunk hl st) := by
  have h := mo_read_header_switch_shift delta (avio_rl16 st.pb).1
    ((avio_rl16 (avio_rl16 st.pb).2).1 * 4 % 2 ^ 16)
    { st with pb := (avio_rl16 (avio_rl16 st.pb).2).2 }
  simp only [shift_state] at h
  simp only [mo_read_header_chunk, shift_state, avio_rl16_shift, avio_tell, h]
  have e1 : (shift_pb delta st.pb).pos = st.pb.pos + delta := rfl
  have e2 : (shift_pb delta (avio_rl16 (avio_rl16 st.pb).2).2).pos
      = (avio_rl16 (avio_rl16 st.pb).2).2.pos + delta := rfl
  rw [e1, e2]
  by_cases h1 : st.pb.pos > hl
  · have h1' : st.pb.pos + delta > hl + delta := by omega
    rw [if_pos h1, if_pos h1']; rfl
  · have h1' : ¬ (st.pb.pos + delta > hl + delta) := by omega
    rw [if_neg h1, if_neg h1']
    by_cases h2 : (avio_rl16 (avio_rl16 st.pb).2).2.pos
        + (avio_rl16 (avio_rl16 st.pb).2).1 * 4 % 2 ^ 16 > hl
    · have h2' : (avio_rl16 (avio_rl16 st.pb).2).2.pos + delta
        + (avio_rl16 (avio_rl16 st.pb).2).1 * 4 % 2 ^ 16 > hl + delta := by omega
      rw [if_pos h2, if_pos h2']; rfl
    · have h2' : ¬ ((avio_rl16 (avio_rl16 st.pb).2).2.pos + delta
        + (avio_rl16 (avio_rl16 st.pb).2).1 * 4 % 2 ^ 16 > hl + delta) := by omega
      rw [if_neg h2, if_neg h2']

theorem mo_read_header_loop_shift (delta : Nat) (fuel : Nat) :
    ∀ (hl : Nat) (st : HeaderState),
      mo_read_header_loop fuel (hl + delta) (shift_state delta st)
        = (mo_read_header_loop fuel hl st).map (fun r => (r.1, shift_state delta r.2)) := by
  induction fuel with
  | zero => intro hl st; rfl
  | succ n ih =>
    intro hl st
    simp only [mo_read_header_loop, mo_read_header_chunk_shift]
    cases mo_read_header_chunk hl st with
    | next st1 => simp only [shift_outcome]; exact ih hl st1
    | done st1 => rfl
    | exhausted st1 => rfl
    | failed err st1 => rfl

/-! ### The chunk loop under a change of the unread tail -/
theorem rd16_append (a t : List UInt8) (h : 2 ≤ a.length) : rd16 (a ++ t) = rd16 a := by
  match a, h with
  | b0 :: b1 :: a2, _ => simp [rd16]

theorem rd32_append (a t : List UInt8) (h : 4 ≤ a.length) : rd32 (a ++ t) = rd32 a := by
  match a, h with
  | b0 :: b1 :: b2 :: b3 :: a2, _ => simp [rd32, rd16]

theorem avio_rl16_tail (pb : AVIOContext) (a t : List UInt8) (hd : pb.data = a ++ t)
    (h : 2 ≤ a.length) :
    avio_rl16 pb = (rd16 a, { pb with data := a.drop 2 ++ t, pos := pb.pos + 2 }) := by
  rw [avio_rl16_eq, hd, rd16_append a t h, List.drop_append_of_le_length h]
  have h1 : min 2 (a ++ t).length = 2 := by simp only [List.length_append]; omega
  have h2 : decide ((a ++ t).length < 2) = false := by
    simp only [List.length_append, decide_eq_false_iff_not]; omega
  rw [h1, h2, Bool.or_false]

theorem avio_rl32_tail (pb : AVIOContext) (a t : List UInt8) (hd : pb.data = a ++ t)
    (h : 4 ≤ a.length) :
    avio_rl32 pb = (rd32 a, { pb with data := a.drop 4 ++ t, pos := pb.pos + 4 }) := by
  rw [avio_rl32_eq, hd, rd32_append a t h, List.drop_append_of_le_length h]
  have h1 : min 4 (a ++ t).length = 4 := by simp only [List.length_append]; omega
  have h2 : decide ((a ++ t).length < 4) = false := by
    simp only [List.length_append, decide_eq_false_iff_not]; omega
  rw [h1, h2, Bool.or_false]

theorem avio_skip_tail (pb : AVIOContext) (a t : List UInt8) (n : Nat) (hd : pb.data = a ++ t)
    (h : n ≤ a.length) :
    avio_skip pb n = { pb with data := a.drop n ++ t, pos := pb.pos + n } := by
  rw [avio_skip, hd, List.drop_append_of_le_length h]

theorem mo_handle_audio_pb (ast : AVStream) (m : Nat) (pb : AVIOContext) :
    (mo_handle_audio ast m pb).2.2 = avio_skip (avio_rl32 pb).2 4 := by
  simp only [mo_handle_audio]
  split_ifs <;> rfl

theorem mo_handle_audio_congr (ast : AVStream) (m : Nat) (pb pb1 : AVIOContext)
    (h : (avio_rl32 pb1).1 = (avio_rl32 pb).1) :
    (mo_handle_audio ast m pb1).1 = (mo_handle_audio ast m pb).1
    ∧ (mo_handle_audio ast m pb1).2.1 = (mo_handle_audio ast m pb).2.1 := by
  simp only [mo_handle_audio, h]
  split_ifs <;> exact ⟨rfl, rfl⟩

theorem mo_read_header_switch_tail (m fl : Nat) (st st1 : HeaderState) (a t t1 : List UInt8)
    (ht : t ≠ []) (hd : st.pb.data = a ++ t)
    (h : mo_read_header_switch m fl st = .next st1)
    (hpos : st1.pb.pos ≤ st.pb.pos + a.length) :
    ∃ a1, st1.pb.data = a1 ++ t ∧ st1.pb.pos + a1.length = st.pb.pos + a.length
      ∧ mo_read_header_switch m fl (with_data st (a ++ t1)) = .next (with_data st1 (a1 ++ t1)) := by
  have htl : 0 < t.length := List.length_pos.mpr ht
  obtain ⟨⟨data, p, e, wr⟩, vst, ast⟩ := st
  simp only at hd
  subst hd
  have skip_case : st1 = { pb := avio_skip ⟨a ++ t, p, e, wr⟩ fl, vst := vst, ast := ast } →
      ∃ a1, st1.pb.data = a1 ++ t ∧ st1.pb.pos + a1.length = p + a.length
        ∧ ChunkOutcome.next { pb := avio_skip ⟨a ++ t1, p, e, wr⟩ fl, vst := vst, ast := ast }
            = .next (with_data st1 (a1 ++ t1)) := by
    intro hs
    subst hs
    simp only [avio_skip] at hpos
    have hfl : fl ≤ a.length := by omega
    refine ⟨a.drop fl, ?_, ?_, ?_⟩
    · simp only [avio_skip, List.drop_append_of_le_length hfl]
    · simp only [avio_skip, List.length_drop]; omega
    · simp only [avio_skip, with_data, List.drop_append_of_le_length hfl]
  unfold mo_read_header_switch at h
  unfold mo_read_header_switch
  simp only [with_data] at h ⊢
  by_cases c1 : m = FORMAT_LENGTH
  · rw [if_pos c1] at h ⊢
    injection h with h
    subst h
    simp only [avio_rl32_eq, avio_skip, List.length_append, List.length_drop] at hpos
    have h12 : 12 ≤ a.length := by omega
    have e1 := avio_rl32_tail ⟨a ++ t, p, e, wr⟩ a t rfl (by omega)
    have e1' := avio_rl32_tail ⟨a ++ t1, p, e, wr⟩ a t1 rfl (by omega)
    have e2 := avio_rl32_tail ⟨a.drop 4 ++ t, p + 4, e, wr⟩ (a.drop 4) t rfl
      (by simp only [List.length_drop]; omega)
    have e2' := avio_rl32_tail ⟨a.drop 4 ++ t1, p + 4, e, wr⟩ (a.drop 4) t1 rfl
      (by simp only [List.length_drop]; omega)
    have e3 := avio_skip_tail ⟨(a.drop 4).drop 4 ++ t, p + 4 + 4, e, wr⟩ ((a.drop 4).drop 4) t 4
      rfl (by simp only [List.length_drop]; omega)
    have e3' := avio_skip_tail ⟨(a.drop 4).drop 4 ++ t1, p + 4 + 4, e, wr⟩ ((a.drop 4).drop 4)
      t1 4 rfl (by simp only [List.length_drop]; omega)
    refine ⟨((a.drop 4).drop 4).drop 4, ?_, ?_, ?_⟩
    · simp only [e1, e2, e3]
    · simp only [e1, e2, e3, List.length_drop]; omega
    · simp only [e1, e2, e3, e1', e2', e3', with_data]
  · rw [if_neg c1] at h ⊢
    by_cases c2 : m = FORMAT_VIDEO
    · rw [if_pos c2] at h ⊢
      injection h with h
      subst h
      simp only [avio_rl32_eq, List.length_append, List.length_drop] at hpos
      have h8 : 8 ≤ a.length := by omega
      have e1 := avio_rl32_tail ⟨a ++ t, p, e, wr⟩ a t rfl (by omega)
      have e1' := avio_rl32_tail ⟨a ++ t1, p, e, wr⟩ a t1 rfl (by omega)
      have e2 := avio_rl32_tail ⟨a.drop 4 ++ t, p + 4, e, wr⟩ (a.drop 4) t rfl
        (by simp only [List.length_drop]; omega)
      have e2' := avio_rl32_tail ⟨a.drop 4 ++ t1, p + 4, e, wr⟩ (a.drop 4) t1 rfl
        (by simp only [List.length_drop]; omega)
      refine ⟨(a.drop 4).drop 4, ?_, ?_, ?_⟩
      · simp only [e1, e2]
      · simp only [e1, e2, List.length_drop]; omega
      · simp only [e1, e2, e1', e2', with_data]
    · rw [if_neg c2] at h ⊢
      by_cases c3 : m = FORMAT_RSA
      · rw [if_pos c3] at h ⊢
        injection h with h
        exact skip_case h.symm
      · rw [if_neg c3] at h ⊢
        by_cases c4 : m = FORMAT_UNKNOWN_AUDIO
        · rw [if_pos c4] at h ⊢
          injection h with h
          exact skip_case h.symm
        · rw [if_neg c4] at h ⊢
          by_cases c5 : m = FORMAT_FASTAUDIO ∨ m = FORMAT_FASTAUDIO_STEREO ∨ m = FORMAT_PCM
              ∨ m = FORMAT_ADPCM ∨ m = FORMAT_ADPCM_STEREO
          · rw [if_pos c5] at h ⊢
            by_cases c6 : (mo_handle_audio ast m ⟨a ++ t, p, e, wr⟩).1 = -1
            · rw [if_pos c6] at h
              exact ChunkOutcome.noConfusion h
            · rw [if_neg c6] at h
              injection h with h
              subst h
              simp only [mo_handle_audio_pb, avio_rl32_eq, avio_skip, List.length_append,
                List.length_drop] at hpos
              have h8 : 8 ≤ a.length := by omega
              have e1 := avio_rl32_tail ⟨a ++ t, p, e, wr⟩ a t rfl (by omega)
              have e1' := avio_rl32_tail ⟨a ++ t1, p, e, wr⟩ a t1 rfl (by omega)
              have e3 := avio_skip_tail ⟨a.drop 4 ++ t, p + 4, e, wr⟩ (a.drop 4) t 4 rfl
                (by simp only [List.length_drop]; omega)
              have e3' := avio_skip_tail ⟨a.drop 4 ++ t1, p + 4, e, wr⟩ (a.drop 4) t1 4 rfl
                (by simp only [List.length_drop]; omega)
              have hc := mo_handle_audio_congr ast m ⟨a ++ t, p, e, wr⟩ ⟨a ++ t1, p, e, wr⟩
                (by rw [e1, e1'])
              refine ⟨(a.drop 4).drop 4, ?_, ?_, ?_⟩
              · simp only [mo_handle_audio_pb, e1, e3]
              · simp only [mo_handle_audio_pb, e1, e3, List.length_drop]; omega
              · rw [hc.1, if_neg c6]
                simp only [mo_handle_audio_pb, e1, e3, e1', e3', with_data, hc.2]
          · rw [if_neg c5] at h ⊢
            by_cases c7 : m = FORMAT_MULTITRACK
            · rw [if_pos c7] at h
              exact ChunkOutcome.noConfusion h
            · rw [if_neg c7] at h ⊢
              by_cases c8 : m = FORMAT_VORBIS
              · rw [if_pos c8] at h
                exact ChunkOutcome.noConfusion h
              · rw [if_neg c8] at h ⊢
                by_cases c9 : m = FORMAT_KEYINDEX
                · rw [if_pos c9] at h ⊢
                  injection h with h
                  exact skip_case h.symm
                · rw [if_neg c9] at h ⊢
                  by_cases c10 : m = FORMAT_HEADER_DONE
                  · rw [if_pos c10] at h
                    exact ChunkOutcome.noConfusion h
                  · rw [if_neg c10] at h ⊢
                    injection h with h
                    exact skip_case h.symm

theorem mo_handle_audio_pos (ast : AVStream) (m : Nat) (pb : AVIOContext) :
    pb.pos ≤ (mo_handle_audio ast m pb).2.2.pos := by
  rw [mo_handle_audio_pb]
  simp only [avio_rl32_eq, avio_skip]
  omega

theorem mo_read_header_switch_pos (m fl : Nat) (st st1 : HeaderState)
    (h : mo_read_header_switch m fl st = .next st1) : st.pb.pos ≤ st1.pb.pos := by
  simp only [mo_read_header_switch] at h
  have hau := mo_handle_audio_pos st.ast m st.pb
  split_ifs at h <;> injection h with h <;> subst h <;>
    simp only [avio_rl32_eq, avio_skip] <;> omega

theorem mo_read_header_chunk_tail (hl hl1 : Nat) (hhl : hl ≤ hl1) (st st1 : HeaderState)
    (a t t1 : List UInt8) (ht : t ≠ []) (hd : st.pb.data = a ++ t)
    (h : mo_read_header_chunk hl st = .next st1)
    (hpos : st1.pb.pos ≤ st.pb.pos + a.length) :
    ∃ a1, st1.pb.data = a1 ++ t ∧ st1.pb.pos + a1.length = st.pb.pos + a.length
      ∧ mo_read_header_chunk hl1 (with_data st (a ++ t1)) = .next (with_data st1 (a1 ++ t1)) := by
  have htl : 0 < t.length := List.length_pos.mpr ht
  obtain ⟨⟨data, p, e, wr⟩, vst, ast⟩ := st
  simp only at hd hpos
  subst hd
  unfold mo_read_header_chunk at h
  simp only [avio_tell] at h
  by_cases c1 : p > hl
  · rw [if_pos c1] at h
    exact ChunkOutcome.noConfusion h
  · rw [if_neg c1] at h
    by_cases c2 : (avio_rl16 (avio_rl16 ⟨a ++ t, p, e, wr⟩).2).2.pos
        + (avio_rl16 (avio_rl16 ⟨a ++ t, p, e, wr⟩).2).1 * 4 % 2 ^ 16 > hl
    · rw [if_pos c2] at h
      exact ChunkOutcome.noConfusion h
    · rw [if_neg c2] at h
      have hmono := mo_read_header_switch_pos _ _ _ _ h
      simp only [avio_rl16_eq, List.length_append, List.length_drop] at hmono
      have h4 : 4 ≤ a.length := by omega
      have e1 := avio_rl16_tail ⟨a ++ t, p, e, wr⟩ a t rfl (by omega)
      have e1' := avio_rl16_tail ⟨a ++ t1, p, e, wr⟩ a t1 rfl (by omega)
      have e2 := avio_rl16_tail ⟨a.drop 2 ++ t, p + 2, e, wr⟩ (a.drop 2) t rfl
        (by simp only [List.length_drop]; omega)
      have e2' := avio_rl16_tail ⟨a.drop 2 ++ t1, p + 2, e, wr⟩ (a.drop 2) t1 rfl
        (by simp only [List.length_drop]; omega)
      simp only [e1, e2] at h c2
      obtain ⟨a1, h1, h2, h3⟩ := mo_read_header_switch_tail _ _ _ st1 ((a.drop 2).drop 2) t t1 ht
        rfl h (by simp only [List.length_drop]; omega)
      refine ⟨a1, h1, ?_, ?_⟩
      · simp only [List.length_drop] at h2
        dsimp only at h2 ⊢
        omega
      · unfold mo_read_header_chunk
        simp only [avio_tell, with_data, e1', e2']
        rw [if_neg (by omega), if_neg (by omega)]
        simpa only [with_data] using h3

theorem mo_read_header_chunk_pos (hl : Nat) (st st1 : HeaderState)
    (h : mo_read_header_chunk hl st = .next st1) : st.pb.pos ≤ st1.pb.pos := by
  unfold mo_read_header_chunk at h
  simp only [avio_tell] at h
  split_ifs at h
  have hmono := mo_read_header_switch_pos _ _ _ _ h
  simp only [avio_rl16_eq] at hmono
  omega

theorem mo_read_header_scan_pos (k : Nat) :
    ∀ (hl : Nat) (st stB : HeaderState), mo_read_header_scan k hl st = some stB →
      st.pb.pos ≤ stB.pb.pos := by
  induction k with
  | zero =>
    intro hl st stB h
    simp only [mo_read_header_scan, Option.some.injEq] at h
    subst h
    exact Nat.le_refl _
  | succ k ih =>
    intro hl st stB h
    simp only [mo_read_header_scan] at h
    cases hc : mo_read_header_chunk hl st with
    | next st1 =>
      rw [hc] at h
      exact Nat.le_trans (mo_read_header_chunk_pos hl st st1 hc) (ih hl st1 stB h)
    | done st1 => rw [hc] at h; simp at h
    | exhausted st1 => rw [hc] at h; simp at h
    | failed err st1 => rw [hc] at h; simp at h

theorem mo_read_header_scan_tail (k : Nat) :
    ∀ (hl hl1 : Nat) (st stB : HeaderState) (a t t1 : List UInt8), hl ≤ hl1 → t ≠ [] →
      st.pb.data = a ++ t → mo_read_header_scan k hl st = some stB →
      stB.pb.pos = st.pb.pos + a.length →
      stB.pb.data = t
        ∧ mo_read_header_scan k hl1 (with_data st (a ++ t1)) = some (with_data stB t1) := by
  induction k with
  | zero =>
    intro hl hl1 st stB a t t1 _ _ hd h hB
    simp only [mo_read_header_scan, Option.some.injEq] at h
    subst h
    have ha : a = [] := List.length_eq_zero.mp (by omega)
    subst ha
    exact ⟨by simpa using hd, rfl⟩
  | succ k ih =>
    intro hl hl1 st stB a t t1 hhl ht hd h hB
    simp only [mo_read_header_scan] at h
    cases hc : mo_read_header_chunk hl st with
    | next st1 =>
      rw [hc] at h
      have hmono := mo_read_header_scan_pos k hl st1 stB h
      obtain ⟨a1, h1, h2, h3⟩ := mo_read_header_chunk_tail hl hl1 hhl st st1 a t t1 ht hd hc
        (by omega)
      obtain ⟨i1, i2⟩ := ih hl hl1 st1 stB a1 t t1 hhl ht h1 h (by omega)
      refine ⟨i1, ?_⟩
      simp only [mo_read_header_scan, h3]
      exact i2
    | done st1 => rw [hc] at h; simp at h
    | exhausted st1 => rw [hc] at h; simp at h
    | failed err st1 => rw [hc] at h; simp at h

theorem mo_read_header_chunk_no_data (hl : Nat) (st : HeaderState) (hd : st.pb.data = []) :
    (∃ st1, mo_read_header_chunk hl st = .exhausted st1)
    ∨ (∃ st1, mo_read_header_chunk hl st = .next st1 ∧ st1.pb.data = []) := by
  obtain ⟨⟨data, p, e, wr⟩, vst, ast⟩ := st
  simp only at hd
  subst hd
  unfold mo_read_header_chunk
  simp only [avio_tell, avio_rl16_eq, rd16]
  split_ifs
  · exact Or.inl ⟨_, rfl⟩
  · exact Or.inl ⟨_, rfl⟩
  · right
    simp [mo_read_header_switch, FORMAT_LENGTH_eq, FORMAT_VIDEO_eq,
      FORMAT_RSA_eq, FORMAT_UNKNOWN_AUDIO_eq, FORMAT_FASTAUDIO_eq, FORMAT_FASTAUDIO_STEREO_eq,
      FORMAT_PCM_eq, FORMAT_ADPCM_eq, FORMAT_ADPCM_STEREO_eq, FORMAT_MULTITRACK_eq,
      FORMAT_VORBIS_eq, FORMAT_KEYINDEX_eq, FORMAT_HEADER_DONE_eq, avio_skip]

theorem mo_read_header_loop_no_data (fuel : Nat) :
    ∀ (hl : Nat) (st : HeaderState), st.pb.data = [] →
      ∀ r, mo_read_header_loop fuel hl st = some r → r.1 = AVERROR_EOF := by
  induction fuel with
  | zero => intro hl st _ r h; simp [mo_read_header_loop] at h
  | succ n ih =>
    intro hl st hd r h
    simp only [mo_read_header_loop] at h
    rcases mo_read_header_chunk_no_data hl st hd with ⟨st1, hc⟩ | ⟨st1, hc, hd1⟩
    · rw [hc] at h
      simp only [Option.some.injEq] at h
      subst h; rfl
    · rw [hc] at h
      exact ih hl st1 hd1 r h

/-! ### The bytes an iteration consumes -/
theorem drop_eq_drop_of (l : List UInt8) (n m : Nat)
    (h : n = m ∨ (l.length ≤ n ∧ l.length ≤ m)) : l.drop n = l.drop m := by
  rcases h with h | ⟨h1, h2⟩
  · rw [h]
  · rw [List.drop_eq_nil_of_le h1, List.drop_eq_nil_of_le h2]

theorem mo_read_header_switch_data (m fl : Nat) (st st1 : HeaderState)
    (h : mo_read_header_switch m fl st = .next st1) :
    st1.pb.data = st.pb.data.drop (st1.pb.pos - st.pb.pos) := by
  simp only [mo_read_header_switch] at h
  split_ifs at h <;> injection h with h <;> subst h <;>
    simp only [mo_handle_audio_pb, avio_rl32_eq, avio_skip, List.drop_drop, List.length_drop] <;>
    apply drop_eq_drop_of <;> omega

theorem mo_read_header_chunk_data (hl : Nat) (st st1 : HeaderState)
    (h : mo_read_header_chunk hl st = .next st1) :
    st1.pb.data = st.pb.data.drop (st1.pb.pos - st.pb.pos) := by
  unfold mo_read_header_chunk at h
  simp only [avio_tell] at h
  split_ifs at h
  have hmono := mo_read_header_switch_pos _ _ _ _ h
  have hdata := mo_read_header_switch_data _ _ _ _ h
  simp only [avio_rl16_eq, List.drop_drop, List.length_drop] at hmono hdata
  rw [hdata]
  apply drop_eq_drop_of
  omega

theorem mo_read_header_scan_data (k : Nat) :
    ∀ (hl : Nat) (st stB : HeaderState), mo_read_header_scan k hl st = some stB →
      stB.pb.data = st.pb.data.drop (stB.pb.pos - st.pb.pos) := by
  induction k with
  | zero =>
    intro hl st stB h
    simp only [mo_read_header_scan, Option.some.injEq] at h
    subst h
    simp
  | succ k ih =>
    intro hl st stB h
    simp only [mo_read_header_scan] at h
    cases hc : mo_read_header_chunk hl st with
    | next st1 =>
      rw [hc] at h
      have h1 := mo_read_header_chunk_pos hl st st1 hc
      have h2 := mo_read_header_scan_pos k hl st1 stB h
      rw [ih hl st1 stB h, mo_read_header_chunk_data hl st st1 hc, List.drop_drop]
      congr 1
      omega
    | done st1 => rw [hc] at h; simp at h
    | exhausted st1 => rw [hc] at h; simp at h
    | failed err st1 => rw [hc] at h; simp at h

/-! ### An unrecognized chunk in the header -/
theorem mo_read_header_loop_of_scan (k : Nat) :
    ∀ (fuel hl : Nat) (st stB : HeaderState) (r : Int × HeaderState),
      mo_read_header_scan k hl st = some stB → mo_read_header_loop fuel hl st = some r →
      ∃ n, fuel = k + n ∧ mo_read_header_loop n hl stB = some r := by
  induction k with
  | zero =>
    intro fuel hl st stB r h hr
    simp only [mo_read_header_scan, Option.some.injEq] at h
    subst h
    exact ⟨fuel, by omega, hr⟩
  | succ k ih =>
    intro fuel hl st stB r h hr
    simp only [mo_read_header_scan] at h
    cases fuel with
    | zero => simp [mo_read_header_loop] at hr
    | succ f =>
      simp only [mo_read_header_loop] at hr
      cases hc : mo_read_header_chunk hl st with
      | next st1 =>
        rw [hc] at h hr
        obtain ⟨n, hn, hl1⟩ := ih f hl st1 stB r h hr
        exact ⟨n, by omega, hl1⟩
      | done st1 => rw [hc] at h; simp at h
      | exhausted st1 => rw [hc] at h; simp at h
      | failed err st1 => rw [hc] at h; simp at h

theorem mo_read_header_loop_ok_pos (n hl : Nat) (st fin : HeaderState)
    (h : mo_read_header_loop n hl st = some (0, fin)) : st.pb.pos ≤ hl := by
  cases n with
  | zero => simp [mo_read_header_loop] at h
  | succ n =>
    by_contra hc
    have hgt : avio_tell st.pb > hl := by simp only [avio_tell]; omega
    simp only [mo_read_header_loop, mo_read_header_chunk, if_pos hgt, Option.some.injEq,
      Prod.mk.injEq] at h
    exact absurd h.1 (by decide)

theorem chunk_unknown (hl marker w : Nat) (hmarker : marker < 65536)
    (hbranch : ¬ has_dedicated_branch marker) (hw : 4 * w < 65536)
    (payload t : List UInt8) (hpay : payload.length = 4 * w)
    (p : Nat) (e : Bool) (wr : List UInt8) (vst ast : AVStream) (hp : p + 4 + 4 * w ≤ hl) :
    mo_read_header_chunk hl
      ⟨⟨le16 marker ++ (le16 w ++ (payload ++ t)), p, e, wr⟩, vst, ast⟩
    = .next ⟨⟨t, p + (4 + 4 * w), e, wr⟩, vst, ast⟩ := by
  have h1 : ¬ (p > hl) := by omega
  have hfl : w * 4 % 2 ^ 16 = 4 * w := by omega
  have h2 : ¬ (p + 2 + 2 + 4 * w > hl) := by omega
  simp only [has_dedicated_branch, not_or] at hbranch
  obtain ⟨b1, b2, b3, b4, b5, b6, b7, b8, b9, b10, b11, b12, b13⟩ := hbranch
  have b59 : ¬ (marker = FORMAT_FASTAUDIO ∨ marker = FORMAT_FASTAUDIO_STEREO
      ∨ marker = FORMAT_PCM ∨ marker = FORMAT_ADPCM ∨ marker = FORMAT_ADPCM_STEREO) := by
    simp only [b5, b6, b7, b8, b9, or_self, not_false_eq_true]
  have hdrop : (payload ++ t).drop (4 * w) = t := by
    rw [← hpay]; exact List.drop_left _ _
  simp only [mo_read_header_chunk, mo_read_header_switch, avio_tell,
    avio_rl16_le16 marker hmarker, avio_rl16_le16 w (by omega), hfl, if_neg h1, if_neg h2,
    if_neg b1, if_neg b2, if_neg b3, if_neg b4, if_neg b59, if_neg b10, if_neg b11,
    if_neg b12, if_neg b13, avio_skip, hdrop]
  simp only [ChunkOutcome.next.injEq, HeaderState.mk.injEq, AVIOContext.mk.injEq, and_true,
    true_and]
  omega

/-- C5 (amended): take a header (four magic bytes, length field `L`, then `pre ++ suf`) on
which `mo_read_header` returns 0 and whose chunk scan starts an iteration at the end of
`pre` (a chunk boundary before the header-done chunk). Insert there a chunk whose marker
has no branch of its own, with word count `w` (`4 * w < 65536`) and exactly `4 * w` payload
bytes, and raise the length field by `4 + 4 * w`. If the raised field plus 8 still stays
below `2^32`, `mo_read_header` returns 0 on the extended header as well (one more iteration)
and leaves the same stream descriptors. -/
theorem unknown_chunk_skipped (m0 m1 m2 m3 : UInt8) (L marker w : Nat)
    (pre suf payload : List UInt8) (s : AVFormatContext MoDemuxContext)
    (hdata : s.pb.data = [m0, m1, m2, m3] ++ le32 L ++ pre ++ suf) (hpos0 : s.pb.pos = 0)
    (hmarker : marker < 65536) (hbranch : ¬ has_dedicated_branch marker)
    (hw : 4 * w < 65536) (hpay : payload.length = 4 * w)
    (hL : L + (4 + 4 * w) + 8 < 2 ^ 32)
    (k : Nat) (stB : HeaderState)
    (hreach : mo_read_header_scan k (mo_read_header_start s).1 (mo_read_header_start s).2
      = some stB)
    (hB : stB.pb.pos = 8 + pre.length)
    (fuel : Nat) (res : AVFormatContext MoDemuxContext)
    (hok : mo_read_header fuel s = some (0, res)) :
    ∃ res1, mo_read_header (fuel + 1)
        (with_bytes s ([m0, m1, m2, m3] ++ le32 (L + (4 + 4 * w)) ++ pre
            ++ (le16 marker ++ le16 w ++ payload) ++ suf))
        = some (0, res1)
      ∧ res1.streams = res.streams := by
  obtain ⟨⟨data, p, e, wr⟩, streams, priv⟩ := s
  simp only at hdata hpos0
  subst hpos0
  have hdata1 : data = m0 :: m1 :: m2 :: m3 :: (le32 L ++ (pre ++ suf)) := by
    rw [hdata]; simp
  subst hdata1
  have hdata2 : [m0, m1, m2, m3] ++ le32 (L + (4 + 4 * w)) ++ pre
      ++ (le16 marker ++ le16 w ++ payload) ++ suf
      = m0 :: m1 :: m2 :: m3 :: (le32 (L + (4 + 4 * w))
          ++ (pre ++ (le16 marker ++ (le16 w ++ (payload ++ suf))))) := by
    simp
  simp only [hdata2, with_bytes]
  -- the two preambles
  have hst : mo_read_header_start
      ⟨⟨m0 :: m1 :: m2 :: m3 :: (le32 L ++ (pre ++ suf)), 0, e, wr⟩, streams, priv⟩
      = (L + 8, ⟨⟨pre ++ suf, 8, e, wr⟩, new_video_stream, new_stream⟩) := by
    simp only [mo_read_header_start]
    rw [mo_read_header_init_le32 _ _ _ _ _ _ L (by omega), Nat.mod_eq_of_lt (by omega)]
  have hst1 : mo_read_header_start
      ⟨⟨m0 :: m1 :: m2 :: m3 :: (le32 (L + (4 + 4 * w))
          ++ (pre ++ (le16 marker ++ (le16 w ++ (payload ++ suf))))), 0, e, wr⟩, streams, priv⟩
      = (L + 8 + (4 + 4 * w), ⟨⟨pre ++ (le16 marker ++ (le16 w ++ (payload ++ suf))), 8, e, wr⟩,
          new_video_stream, new_stream⟩) := by
    simp only [mo_read_header_start]
    rw [mo_read_header_init_le32 _ _ _ _ _ _ (L + (4 + 4 * w)) (by omega),
      Nat.mod_eq_of_lt (by omega)]
    have : L + (4 + 4 * w) + 8 = L + 8 + (4 + 4 * w) := by omega
    rw [this]
  rw [hst] at hreach
  simp only at hreach
  -- the original run, split at the boundary
  rw [mo_read_header_eq, hst] at hok
  simp only [Option.map_eq_some', Prod.mk.injEq] at hok
  obtain ⟨⟨ret, fin⟩, hloop, hret, hres⟩ := hok
  simp only at hret hres
  subst hret
  obtain ⟨n, hn, hloopB⟩ := mo_read_header_loop_of_scan k fuel _ _ stB _ hreach hloop
  have hBd := mo_read_header_scan_data k _ _ stB hreach
  simp only [hB, Nat.add_sub_cancel_left, List.drop_left] at hBd
  have hsuf : suf ≠ [] := by
    intro hnil
    rw [hnil] at hBd
    have h0 : (0 : Int) = AVERROR_EOF := mo_read_header_loop_no_data n _ stB hBd _ hloopB
    exact absurd h0 (by decide)
  have hBle := mo_read_header_loop_ok_pos n _ stB fin hloopB
  -- the run on the extended header
  obtain ⟨-, hscan1⟩ := mo_read_header_scan_tail k (L + 8) (L + 8 + (4 + 4 * w))
    _ stB pre suf (le16 marker ++ (le16 w ++ (payload ++ suf))) (by omega) hsuf rfl hreach
    (by simpa using hB)
  simp only [with_data, List.append_assoc] at hscan1
  have hins := chunk_unknown (L + 8 + (4 + 4 * w)) marker w hmarker hbranch hw payload suf hpay
    stB.pb.pos stB.pb.eof_reached stB.pb.written stB.vst stB.ast (by omega)
  have hshift : (⟨⟨suf, stB.pb.pos + (4 + 4 * w), stB.pb.eof_reached, stB.pb.written⟩,
      stB.vst, stB.ast⟩ : HeaderState) = shift_state (4 + 4 * w) stB := by
    simp only [shift_state, shift_pb, ← hBd]
  rw [hshift] at hins
  have hloop1 : mo_read_header_loop (fuel + 1) (L + 8 + (4 + 4 * w))
      ⟨⟨pre ++ (le16 marker ++ (le16 w ++ (payload ++ suf))), 8, e, wr⟩, new_video_stream,
        new_stream⟩
      = some (0, shift_state (4 + 4 * w) fin) := by
    have e1 : fuel + 1 = k + (n + 1) := by omega
    rw [e1, mo_read_header_loop_scan k _ _ _ _ hscan1]
    simp only [mo_read_header_loop, hins]
    rw [mo_read_header_loop_shift, hloopB]
    rfl
  refine ⟨⟨(shift_state (4 + 4 * w) fin).pb, streams ++ [fin.vst, fin.ast], priv⟩, ?_, ?_⟩
  · rw [mo_read_header_eq, hst1]
    simp only [hloop1, Option.map_some']
    rfl
  · rw [← hres]

theorem unknown_chunk_skipped_witness :
    ∃ res1, mo_read_header (4 + 1)
        (with_bytes (demux_open ([77, 79, 67, 53] ++ le32 44 ++ sample_pre ++ sample_suf))
          ([77, 79, 67, 53] ++ le32 (44 + (4 + 4 * 1)) ++ sample_pre
            ++ (le16 FORMAT_POSSIBLY_CAPTIONS ++ le16 1 ++ [1, 2, 3, 4]) ++ sample_suf))
        = some (0, res1)
      ∧ res1.streams = (
        { pb := { data := [], pos := 52, eof_reached := false, written := [] },
          streams := [sample_video, sample_audio],
          priv_data := { handle_audio_packet := 0, audio_size := 0, unknown_size := 0 } }
          : AVFormatContext MoDemuxContext).streams :=
  unknown_chunk_skipped 77 79 67 53 44 FORMAT_POSSIBLY_CAPTIONS 1 sample_pre sample_suf
    [1, 2, 3, 4] (demux_open ([77, 79, 67, 53] ++ le32 44 ++ sample_pre ++ sample_suf))
    rfl rfl (by decide) (by decide) (by decide) (by decide) (by decide) 2
    { pb := { data := sample_suf, pos := 36, eof_reached := false, written := [] },
      vst := sample_video, ast := { new_stream with duration := 100 } }
    (by decide) (by decide) 4
    { pb := { data := [], pos := 52, eof_reached := false, written := [] },
      streams := [sample_video, sample_audio],
      priv_data := { handle_audio_packet := 0, audio_size := 0, unknown_size := 0 } }
    (by decide)

/-- C5 as stated fails: the header M, O, C, 5, length field `2^32 - 16`, header-done chunk
is parsed with result 0; a chunk with the marker c, c (no branch of its own), word count 1
and 4 payload bytes is inserted at the chunk boundary 8 and the length field raised by 8 to
`2^32 - 8`, which still fits the 32-bit field; the 32-bit header extent wraps to 0 and
`mo_read_header` returns `AVERROR_EOF`. -/
theorem unknown_chunk_extent_wraps :
    (mo_read_header 1 (demux_open ([77, 79, 67, 53] ++ le32 (2 ^ 32 - 16) ++ []
        ++ [0x48, 0x45, 0, 0]))).map Prod.fst = some 0
    ∧ (mo_read_header_scan 0
        (mo_read_header_start (demux_open ([77, 79, 67, 53] ++ le32 (2 ^ 32 - 16) ++ []
          ++ [0x48, 0x45, 0, 0]))).1
        (mo_read_header_start (demux_open ([77, 79, 67, 53] ++ le32 (2 ^ 32 - 16) ++ []
          ++ [0x48, 0x45, 0, 0]))).2).map (fun st => st.pb.pos)
        = some (8 + ([] : List UInt8).length)
    ∧ ¬ has_dedicated_branch FORMAT_POSSIBLY_CAPTIONS
    ∧ 4 * 1 < 65536
    ∧ 2 ^ 32 - 16 + (4 + 4 * 1) < 2 ^ 32
    ∧ (mo_read_header (1 + 1)
        (with_bytes (demux_open ([77, 79, 67, 53] ++ le32 (2 ^ 32 - 16) ++ []
            ++ [0x48, 0x45, 0, 0]))
          ([77, 79, 67, 53] ++ le32 (2 ^ 32 - 16 + (4 + 4 * 1)) ++ []
            ++ (le16 FORMAT_POSSIBLY_CAPTIONS ++ le16 1 ++ [1, 2, 3, 4])
            ++ [0x48, 0x45, 0, 0]))).map Prod.fst = some AVERROR_EOF
    ∧ AVERROR_EOF ≠ 0 := by
  decide

/-! ### Packet reader: end of stream, padding, chunk pairs -/

theorem avio_rl32_eof (pb : AVIOContext) (h : pb.eof_reached = true) :
    (avio_rl32 pb).2.eof_reached = true := by
  simp [avio_rl32_eq, h]

theorem av_get_packet_eof (pb : AVIOContext) (pkt : AVPacket) (n : Nat)
    (h : pb.eof_reached = true) : (av_get_packet pb pkt n).2.2.eof_reached = true := by
  unfold av_get_packet
  split_ifs <;> simp [h]

theorem av_get_packet_neg (pb : AVIOContext) (pkt : AVPacket) (n : Nat)
    (h : (av_get_packet pb pkt n).1 < 0) : (av_get_packet pb pkt n).1 = AVERROR_EOF := by
  unfold av_get_packet at h ⊢
  split_ifs at h ⊢
  · simp at h; omega
  · rfl

theorem mo_read_packet_after_eof (s : AVFormatContext MoDemuxContext) (pkt : AVPacket)
    (h : s.pb.eof_reached = true) :
    (mo_read_packet s pkt).1 = AVERROR_EOF
    ∧ (mo_read_packet s pkt).2.2.pb.eof_reached = true := by
  unfold mo_read_packet
  simp only [avio_feof, avio_skip]
  by_cases hf : s.priv_data.handle_audio_packet ≠ 0
  · rw [if_pos hf]
    have he := av_get_packet_eof s.pb pkt s.priv_data.audio_size h
    by_cases hr : (av_get_packet s.pb pkt s.priv_data.audio_size).1 < 0
    · rw [if_pos hr]
      exact ⟨av_get_packet_neg _ _ _ hr, he⟩
    · rw [if_neg hr]
      simp only [he, if_true, and_self]
  · rw [if_neg hf]
    have he := av_get_packet_eof (avio_rl32 (avio_rl32 s.pb).2).2 pkt
      (avio_rl32 (avio_rl32 s.pb).2).1 (avio_rl32_eof _ (avio_rl32_eof _ h))
    by_cases hr : (av_get_packet (avio_rl32 (avio_rl32 s.pb).2).2 pkt
        (avio_rl32 (avio_rl32 s.pb).2).1).1 < 0
    · rw [if_pos hr]
      exact ⟨av_get_packet_neg _ _ _ hr, he⟩
    · rw [if_neg hr]
      simp only [he, if_true, and_self]

/-- C11 (amended): when the extraction of `mo_read_packet` succeeds (`av_get_packet` returns
a non-negative size) and the byte source then reports its end, that same call returns
`AVERROR_EOF`, a negative value; the packet has been filled and the stream consumed as the
extraction left them, and every following call returns `AVERROR_EOF` as well. -/
theorem mo_read_packet_eof_gate (s : AVFormatContext MoDemuxContext) (pkt : AVPacket)
    (hget : 0 ≤ (mo_read_packet_extraction s pkt).1)
    (hfeof : avio_feof (mo_read_packet_extraction s pkt).2.2 = true) :
    (mo_read_packet s pkt).1 = AVERROR_EOF
    ∧ (mo_read_packet s pkt).1 < 0
    ∧ (mo_read_packet s pkt).2.1.data = (mo_read_packet_extraction s pkt).2.1.data
    ∧ (mo_read_packet s pkt).2.2.pb = (mo_read_packet_extraction s pkt).2.2
    ∧ (∀ pkt2, (mo_read_packet (mo_read_packet s pkt).2.2 pkt2).1 = AVERROR_EOF) := by
  have hneg : AVERROR_EOF < 0 := by decide
  have key : (mo_read_packet s pkt).1 = AVERROR_EOF
      ∧ (mo_read_packet s pkt).2.1.data = (mo_read_packet_extraction s pkt).2.1.data
      ∧ (mo_read_packet s pkt).2.2.pb = (mo_read_packet_extraction s pkt).2.2 := by
    unfold mo_read_packet_extraction at hget hfeof ⊢
    unfold mo_read_packet
    by_cases hf : s.priv_data.handle_audio_packet ≠ 0
    · simp only [if_pos hf] at hget hfeof ⊢
      rw [if_neg (by omega), if_pos hfeof]
      exact ⟨rfl, rfl, rfl⟩
    · simp only [if_neg hf] at hget hfeof ⊢
      rw [if_neg (by omega), if_pos hfeof]
      exact ⟨rfl, rfl, rfl⟩
  refine ⟨key.1, by rw [key.1]; exact hneg, key.2.1, key.2.2, ?_⟩
  intro pkt2
  exact (mo_read_packet_after_eof _ pkt2 (by rw [key.2.2]; exact hfeof)).1

theorem mo_read_packet_eof_gate_witness :
    (mo_read_packet (demux_open []) ⟨[], 0⟩).1 = AVERROR_EOF
    ∧ (mo_read_packet (demux_open []) ⟨[], 0⟩).1 < 0
    ∧ (mo_read_packet (demux_open []) ⟨[], 0⟩).2.1.data
        = (mo_read_packet_extraction (demux_open []) ⟨[], 0⟩).2.1.data
    ∧ (mo_read_packet (demux_open []) ⟨[], 0⟩).2.2.pb
        = (mo_read_packet_extraction (demux_open []) ⟨[], 0⟩).2.2
    ∧ (∀ pkt2, (mo_read_packet (mo_read_packet (demux_open []) ⟨[], 0⟩).2.2 pkt2).1
        = AVERROR_EOF) :=
  mo_read_packet_eof_gate (demux_open []) ⟨[], 0⟩ (by decide) (by decide)

/-- C11 as stated fails: on the four bytes `08 00 00 00` the video phase extracts an empty
packet with result 0 and the byte source has then reached its end, yet that same call
returns `AVERROR_EOF`, not the non-negative result of the extraction. -/
theorem mo_read_packet_eof_same_call :
    0 ≤ (mo_read_packet_extraction (demux_open [8, 0, 0, 0]) ⟨[], 0⟩).1
    ∧ avio_feof (mo_read_packet_extraction (demux_open [8, 0, 0, 0]) ⟨[], 0⟩).2.2 = true
    ∧ (mo_read_packet (demux_open [8, 0, 0, 0]) ⟨[], 0⟩).1 = AVERROR_EOF
    ∧ ¬ (0 ≤ (mo_read_packet (demux_open [8, 0, 0, 0]) ⟨[], 0⟩).1) := by
  decide

/-- C13: for every 32-bit position `pos` the padding `(pos + 4 - pos % 4) - pos`, computed
in 32-bit unsigned arithmetic, equals `4 - pos % 4`; it is one of 1, 2, 3, 4, it is 4 when
`pos` is divisible by 4 and it is never 0. The video phase of `mo_read_packet` stores
exactly this value of its 32-bit local `pos` in `unknown_size`. -/
theorem padding_formula (pos : Nat) (hpos : pos < 2 ^ 32) (s : AVFormatContext MoDemuxContext)
    (pkt : AVPacket) (hflag : s.priv_data.handle_audio_packet = 0) :
    u32_sub (u32_sub (u32_add pos 4) (pos % 4)) pos = 4 - pos % 4
    ∧ (4 - pos % 4 = 1 ∨ 4 - pos % 4 = 2 ∨ 4 - pos % 4 = 3 ∨ 4 - pos % 4 = 4)
    ∧ (pos % 4 = 0 → u32_sub (u32_sub (u32_add pos 4) (pos % 4)) pos = 4)
    ∧ u32_sub (u32_sub (u32_add pos 4) (pos % 4)) pos ≠ 0
    ∧ mo_read_packet_pos s < 2 ^ 32
    ∧ (mo_read_packet s pkt).2.2.priv_data.unknown_size = 4 - mo_read_packet_pos s % 4 := by
  have h1 : u32_sub (u32_sub (u32_add pos 4) (pos % 4)) pos = 4 - pos % 4 := by
    unfold u32_sub u32_add; omega
  have h2 : mo_read_packet_pos s < 2 ^ 32 := by
    unfold mo_read_packet_pos u32; simp only; omega
  have h3 : u32_sub (u32_sub (u32_add (mo_read_packet_pos s) 4) (mo_read_packet_pos s % 4))
      (mo_read_packet_pos s) = 4 - mo_read_packet_pos s % 4 := by
    unfold u32_sub u32_add; omega
  refine ⟨h1, by omega, fun h => by rw [h1]; omega, by rw [h1]; omega, h2, ?_⟩
  rw [← h3]
  unfold mo_read_packet mo_read_packet_pos
  have hf : ¬ (s.priv_data.handle_audio_packet ≠ 0) := by simp [hflag]
  simp only [if_neg hf]
  split_ifs <;> rfl

theorem padding_formula_witness :
    16 < 2 ^ 32
    ∧ (demux_open (le32 12 ++ le32 2 ++ [1, 2, 3, 4])).priv_data.handle_audio_packet = 0
    ∧ u32_sub (u32_sub (u32_add 16 4) (16 % 4)) 16 = 4
    ∧ (mo_read_packet (demux_open (le32 12 ++ le32 2 ++ [1, 2, 3, 4])) ⟨[], 0⟩).2.2.priv_data.unknown_size
        = 4 - mo_read_packet_pos (demux_open (le32 12 ++ le32 2 ++ [1, 2, 3, 4])) % 4 :=
  ⟨by decide, rfl,
    (padding_formula 16 (by decide) (demux_open (le32 12 ++ le32 2 ++ [1, 2, 3, 4])) ⟨[], 0⟩
      rfl).2.2.1 (by decide),
    (padding_formula 16 (by decide) (demux_open (le32 12 ++ le32 2 ++ [1, 2, 3, 4])) ⟨[], 0⟩
      rfl).2.2.2.2.2⟩

theorem mo_read_packet_video_state (s : AVFormatContext MoDemuxContext) (pkt : AVPacket)
    (video t : List UInt8) (cs : Nat)
    (hflag : s.priv_data.handle_audio_packet = 0)
    (hdata : s.pb.data = le32 cs ++ (le32 video.length ++ (video ++ t)))
    (hcs : cs < 2 ^ 32) (hge : video.length + 8 ≤ cs) :
    (mo_read_packet s pkt).2
      = ({ data := video, stream_index := 0 },
          { s with
            pb := { s.pb with data := t, pos := s.pb.pos + 8 + video.length },
            priv_data :=
              { handle_audio_packet := 1, audio_size := cs - video.length - 8,
                unknown_size := padding_size (s.pb.pos + cs) } }) := by
  obtain ⟨⟨data, p, e, wr⟩, streams, ⟨flag, asz, usz⟩⟩ := s
  simp only at hflag hdata
  subst hflag hdata
  have hv : video.length < 2 ^ 32 := by omega
  have hnn : ¬ ((video.length : Int) < 0) := by omega
  have ha : u32_sub (u32_sub cs video.length) 8 = cs - video.length - 8 := by
    unfold u32_sub; omega
  have hp : p + 4 + 4 + video.length + (cs - video.length - 8) = p + cs := by omega
  simp only [mo_read_packet, avio_rl32_le32 _ hcs, avio_rl32_le32 _ hv, avio_tell, ha, hp,
    unknown_size_eq, av_get_packet, avio_feof, ne_eq, not_true_eq_false, if_false,
    List.length_append, Nat.le_add_right, if_true, hnn, List.take_left, List.drop_left]
  cases e <;> rfl

theorem mo_read_packet_audio_state (s : AVFormatContext MoDemuxContext) (pkt : AVPacket)
    (audio t : List UInt8)
    (hflag : s.priv_data.handle_audio_packet = 1)
    (ha : s.priv_data.audio_size = audio.length)
    (hdata : s.pb.data = audio ++ t) :
    (mo_read_packet s pkt).2
      = ({ data := audio, stream_index := 1 },
          { s with
            pb := { s.pb with data := t.drop s.priv_data.unknown_size,
                              pos := s.pb.pos + audio.length + s.priv_data.unknown_size },
            priv_data := { s.priv_data with handle_audio_packet := 0 } }) := by
  obtain ⟨⟨data, p, e, wr⟩, streams, ⟨flag, asz, usz⟩⟩ := s
  simp only at hflag hdata ha
  subst hflag hdata ha
  have hnn : ¬ ((audio.length : Int) < 0) := by omega
  simp only [mo_read_packet, av_get_packet, avio_feof, avio_skip, ne_eq, one_ne_zero,
    not_false_eq_true, if_true, List.length_append, Nat.le_add_right, hnn, if_false,
    List.take_left, List.drop_left]
  cases e <;> rfl

theorem padding_size_next_multiple (x : Nat) :
    4 ∣ x + padding_size x ∧ x < x + padding_size x
    ∧ ∀ m, 4 ∣ m → x < m → x + padding_size x ≤ m := by
  unfold padding_size
  refine ⟨by omega, by omega, ?_⟩
  intro m hm hx
  omega

/-- C16: on a chunk that starts at the current position with `chunk_size >= video_size + 8`
and all its bytes in the stream, a video-phase call followed by an audio-phase call of
`mo_read_packet` yields the video payload on stream 0 and the audio payload on stream 1,
consumes the 8-byte chunk header, the two payloads and the padding, and leaves the stream
at `p + chunk_size + padding`, the smallest multiple of 4 strictly greater than
`p + chunk_size`; the stored audio size satisfies
`video_size + audio_size + 8 = chunk_size`. -/
theorem mo_read_packet_pair (s : AVFormatContext MoDemuxContext) (pkt pkt2 : AVPacket)
    (video audio rest : List UInt8) (chunk_size : Nat)
    (hflag : s.priv_data.handle_audio_packet = 0)
    (hcs : chunk_size < 2 ^ 32) (hge : chunk_size ≥ video.length + 8)
    (haudio : audio.length = chunk_size - video.length - 8)
    (hdata : s.pb.data = le32 chunk_size ++ le32 video.length ++ video ++ audio ++ rest) :
    (mo_read_packet s pkt).2.1 = { data := video, stream_index := 0 }
    ∧ (mo_read_packet (mo_read_packet s pkt).2.2 pkt2).2.1 = { data := audio, stream_index := 1 }
    ∧ video.length + (mo_read_packet s pkt).2.2.priv_data.audio_size + 8 = chunk_size
    ∧ (mo_read_packet (mo_read_packet s pkt).2.2 pkt2).2.2.pb.pos
        = s.pb.pos + chunk_size + padding_size (s.pb.pos + chunk_size)
    ∧ (mo_read_packet (mo_read_packet s pkt).2.2 pkt2).2.2.pb.pos
        = s.pb.pos + 8 + video.length + (chunk_size - video.length - 8)
          + padding_size (s.pb.pos + chunk_size)
    ∧ (mo_read_packet (mo_read_packet s pkt).2.2 pkt2).2.2.pb.data
        = rest.drop (padding_size (s.pb.pos + chunk_size))
    ∧ 4 ∣ (mo_read_packet (mo_read_packet s pkt).2.2 pkt2).2.2.pb.pos
    ∧ s.pb.pos + chunk_size < (mo_read_packet (mo_read_packet s pkt).2.2 pkt2).2.2.pb.pos
    ∧ (∀ m, 4 ∣ m → s.pb.pos + chunk_size < m →
        (mo_read_packet (mo_read_packet s pkt).2.2 pkt2).2.2.pb.pos ≤ m)
    ∧ (mo_read_packet (mo_read_packet s pkt).2.2 pkt2).2.2.priv_data.handle_audio_packet = 0 := by
  have h1 := mo_read_packet_video_state s pkt video (audio ++ rest) chunk_size hflag
    (by rw [hdata]; simp) hcs hge
  have h2 := mo_read_packet_audio_state (mo_read_packet s pkt).2.2 pkt2 audio rest
    (by rw [h1]) (by rw [h1]; exact haudio.symm) (by rw [h1])
  obtain ⟨n1, n2, n3⟩ := padding_size_next_multiple (s.pb.pos + chunk_size)
  have hpos : (mo_read_packet (mo_read_packet s pkt).2.2 pkt2).2.2.pb.pos
      = s.pb.pos + chunk_size + padding_size (s.pb.pos + chunk_size) := by
    rw [h2, h1]; simp only; omega
  refine ⟨by rw [h1], by rw [h2], ?_, hpos, by rw [hpos]; omega, ?_, by rw [hpos]; exact n1,
    by rw [hpos]; exact n2, fun m hm hx => by rw [hpos]; exact n3 m hm hx, by rw [h2]⟩
  · rw [h1]; simp only; omega
  · rw [h2, h1]

theorem mo_read_packet_pair_witness :
    (mo_read_packet (demux_open (le32 12 ++ le32 2 ++ [1, 2] ++ [3, 4] ++ [0, 0, 0, 0, 9]))
        ⟨[], 0⟩).2.1 = { data := [1, 2], stream_index := 0 }
    ∧ (mo_read_packet (mo_read_packet
        (demux_open (le32 12 ++ le32 2 ++ [1, 2] ++ [3, 4] ++ [0, 0, 0, 0, 9])) ⟨[], 0⟩).2.2
        ⟨[], 0⟩).2.1 = { data := [3, 4], stream_index := 1 }
    ∧ (mo_read_packet (mo_read_packet
        (demux_open (le32 12 ++ le32 2 ++ [1, 2] ++ [3, 4] ++ [0, 0, 0, 0, 9])) ⟨[], 0⟩).2.2
        ⟨[], 0⟩).2.2.pb.pos = 16 :=
  have h := mo_read_packet_pair
    (demux_open (le32 12 ++ le32 2 ++ [1, 2] ++ [3, 4] ++ [0, 0, 0, 0, 9])) ⟨[], 0⟩ ⟨[], 0⟩
    [1, 2] [3, 4] [0, 0, 0, 0, 9] 12 rfl (by decide) (by decide) (by decide) rfl
  ⟨h.1, h.2.1, h.2.2.2.1⟩

/-! ### Chunk loop: length field, termination, framing -/

theorem mo_read_header_chunk_eq (hl : Nat) (st : HeaderState) :
    mo_read_header_chunk hl st
      = if avio_tell st.pb > hl then .exhausted st
        else if chunk_payload_pos st + chunk_format_length st > hl then
          .exhausted { st with pb := (avio_rl16 (avio_rl16 st.pb).2).2 }
        else mo_read_header_switch (chunk_format_marker st) (chunk_format_length st)
          { st with pb := (avio_rl16 (avio_rl16 st.pb).2).2 } := rfl

theorem chunk_format_length_le16 (m w : Nat) (hm : m < 65536) (hw : w < 65536)
    (t : List UInt8) (p : Nat) (e : Bool) (wr : List UInt8) (vst ast : AVStream) :
    chunk_format_length ⟨⟨le16 m ++ (le16 w ++ t), p, e, wr⟩, vst, ast⟩ = (w * 4) % 2 ^ 16
    ∧ chunk_format_marker ⟨⟨le16 m ++ (le16 w ++ t), p, e, wr⟩, vst, ast⟩ = m
    ∧ chunk_payload_pos ⟨⟨le16 m ++ (le16 w ++ t), p, e, wr⟩, vst, ast⟩ = p + 4 := by
  simp only [chunk_format_length, chunk_format_marker, chunk_payload_pos, avio_tell,
    avio_rl16_le16 m hm, avio_rl16_le16 w hw, and_self, true_and]

/-- C14 fails: for the word count `0x4000` read from the chunk header the byte length
`format_length` used for the bounds check and the skip is 0, not `0x4000 * 4 = 65536`: the
product is stored in 16 bits. With header extent 16 the chunk at position 8 passes the
bounds check and nothing is skipped: the next chunk header is read at position 12. -/
theorem format_length_truncated :
    chunk_format_length (scan_state (le16 FORMAT_KEYINDEX ++ le16 0x4000 ++ [0x48, 0x45, 0, 0]) 8)
      = 0
    ∧ 0x4000 * 4 = 65536
    ∧ mo_read_header_chunk 16
        (scan_state (le16 FORMAT_KEYINDEX ++ le16 0x4000 ++ [0x48, 0x45, 0, 0]) 8)
        = .next (scan_state [0x48, 0x45, 0, 0] 12) := by
  decide

/-- C12 fails: in this 16-byte header (length field 8, extent 16) the first chunk, a `KI`
chunk at position 8, declares `0x4000` words, so its declared byte range `12 + 65536`
exceeds the header extent before the header-done marker is dispatched; yet
`mo_read_header` does not stop with `AVERROR_EOF` but goes on to the header-done chunk and
returns 0. -/
theorem mo_read_header_oversized_chunk_accepted :
    (mo_read_header_start (demux_open ([77, 79, 67, 53] ++ le32 8
      ++ (le16 FORMAT_KEYINDEX ++ le16 0x4000) ++ (le16 FORMAT_HEADER_DONE ++ le16 0)))).1 = 16
    ∧ chunk_payload_pos (mo_read_header_start (demux_open ([77, 79, 67, 53] ++ le32 8
      ++ (le16 FORMAT_KEYINDEX ++ le16 0x4000) ++ (le16 FORMAT_HEADER_DONE ++ le16 0)))).2
        + 4 * 0x4000 > 16
    ∧ (mo_read_header 2 (demux_open ([77, 79, 67, 53] ++ le32 8
      ++ (le16 FORMAT_KEYINDEX ++ le16 0x4000) ++ (le16 FORMAT_HEADER_DONE ++ le16 0)))).map
        Prod.fst = some 0 := by
  decide

theorem mo_read_header_loop_stuck (fuel : Nat) :
    ∀ (hl : Nat) (st : HeaderState), st.pb.data = [] → st.pb.pos ≤ hl →
      mo_read_header_loop fuel hl st = none := by
  induction fuel with
  | zero => intro hl st _ _; rfl
  | succ n ih =>
    intro hl st hd hp
    obtain ⟨⟨data, p, e, wr⟩, vst, ast⟩ := st
    simp only at hd hp
    subst hd
    have h1 : ¬ (p > hl) := by omega
    have hc : mo_read_header_chunk hl ⟨⟨[], p, e, wr⟩, vst, ast⟩
        = .next ⟨⟨[], p, true, wr⟩, vst, ast⟩ := by
      simp [mo_read_header_chunk, avio_tell, avio_rl16_eq, rd16, h1, mo_read_header_switch,
        FORMAT_LENGTH_eq, FORMAT_VIDEO_eq,
        FORMAT_RSA_eq, FORMAT_UNKNOWN_AUDIO_eq, FORMAT_FASTAUDIO_eq, FORMAT_FASTAUDIO_STEREO_eq,
        FORMAT_PCM_eq, FORMAT_ADPCM_eq, FORMAT_ADPCM_STEREO_eq, FORMAT_MULTITRACK_eq,
        FORMAT_VORBIS_eq, FORMAT_KEYINDEX_eq, FORMAT_HEADER_DONE_eq, avio_skip]
    simp only [mo_read_header_loop, hc]
    exact ih hl _ rfl hp

/-- C17 fails: on the 8-byte stream `M O C 5` followed by the length field 100 the stream
ends before the declared header extent 108; every iteration reads marker 0 and length 0
past the end without advancing, so the chunk loop is still running after any number of
iterations: `mo_read_header` never returns. -/
theorem mo_read_header_never_returns (fuel : Nat) :
    mo_read_header fuel (demux_open [0x4D, 0x4F, 0x43, 0x35, 100, 0, 0, 0]) = none := by
  rw [mo_read_header_eq]
  have h : mo_read_header_start (demux_open [0x4D, 0x4F, 0x43, 0x35, 100, 0, 0, 0])
      = (108, ⟨⟨[], 8, false, []⟩, new_video_stream, new_stream⟩) := by decide
  rw [h, mo_read_header_loop_stuck fuel 108 _ rfl (by decide)]
  rfl

/-- On every buffer the probe accepts, the little-endian 16-bit value at offset 8, which is
what the header parser reads as the marker of the first chunk, is `0x544C` and not
`FORMAT_LENGTH`. -/
theorem probe_marker_byte_order (p : AVProbeData) (h : mo_probe p ≠ 0) :
    rd16 (p.buf.drop 8) = 0x544C ∧ rd16 (p.buf.drop 8) ≠ FORMAT_LENGTH := by
  have hacc : mo_probe p = AVPROBE_SCORE_EXTENSION + 10 := by
    rcases (mo_probe_score_iff p).1 with h0 | h1
    · exact absurd h0 h
    · exact h1
  have h16 := ((mo_probe_score_iff p).2.mp hacc).2.2
  have h8 := (p.buf.getD 8 0).toNat_lt_size
  have h9 := (p.buf.getD 9 0).toNat_lt_size
  simp only [UInt8.size] at h8 h9
  simp only [AV_RB16, FORMAT_LENGTH_eq, Nat.reduceAdd] at h16
  have e : rd16 (p.buf.drop 8) = (p.buf.getD 8 0).toNat + (p.buf.getD 9 0).toNat * 256 := by
    simp [rd16, List.getD_eq_getElem?_getD, List.getElem?_drop]
  rw [e, FORMAT_LENGTH_eq]
  clear e hacc h
  omega

theorem mo_read_header_switch_next (m fl : Nat) (st st1 : HeaderState)
    (h : mo_read_header_switch m fl st = .next st1) :
    (m = FORMAT_LENGTH
      ∧ st1.pb.pos = st.pb.pos + min 4 st.pb.data.length + min 4 (st.pb.data.length - 4) + 4
      ∧ st1.pb.data = st.pb.data.drop 12)
    ∨ (m = FORMAT_VIDEO
      ∧ st1.pb.pos = st.pb.pos + min 4 st.pb.data.length + min 4 (st.pb.data.length - 4)
      ∧ st1.pb.data = st.pb.data.drop 8)
    ∨ (is_audio_marker m
      ∧ st1.pb.pos = st.pb.pos + min 4 st.pb.data.length + 4
      ∧ st1.pb.data = st.pb.data.drop 8)
    ∨ (m ≠ FORMAT_LENGTH ∧ m ≠ FORMAT_VIDEO ∧ ¬ is_audio_marker m
      ∧ st1.pb.pos = st.pb.pos + fl ∧ st1.pb.data = st.pb.data.drop fl) := by
  simp only [mo_read_header_switch] at h
  by_cases c1 : m = FORMAT_LENGTH
  · rw [if_pos c1] at h
    injection h with h
    subst h
    left
    refine ⟨c1, ?_, ?_⟩
    · simp only [avio_rl32_eq, avio_skip, List.length_drop]
    · simp [avio_rl32_eq, avio_skip]
  · rw [if_neg c1] at h
    by_cases c2 : m = FORMAT_VIDEO
    · rw [if_pos c2] at h
      injection h with h
      subst h
      right; left
      refine ⟨c2, ?_, ?_⟩
      · simp only [avio_rl32_eq, List.length_drop]
      · simp [avio_rl32_eq]
    · rw [if_neg c2] at h
      by_cases c5 : m = FORMAT_FASTAUDIO ∨ m = FORMAT_FASTAUDIO_STEREO ∨ m = FORMAT_PCM
          ∨ m = FORMAT_ADPCM ∨ m = FORMAT_ADPCM_STEREO
      · have c3 : m ≠ FORMAT_RSA := by
          rcases c5 with h | h | h | h | h <;> subst h <;> decide
        have c4 : m ≠ FORMAT_UNKNOWN_AUDIO := by
          rcases c5 with h | h | h | h | h <;> subst h <;> decide
        rw [if_neg c3, if_neg c4, if_pos c5] at h
        split_ifs at h
        injection h with h
        subst h
        right; right; left
        refine ⟨c5, ?_, ?_⟩
        · simp only [mo_handle_audio_pb, avio_rl32_eq, avio_skip]
        · simp [mo_handle_audio_pb, avio_rl32_eq, avio_skip]
      · right; right; right
        refine ⟨c1, c2, c5, ?_⟩
        rw [if_neg c5] at h
        split_ifs at h <;> injection h with h <;> subst h <;> exact ⟨rfl, rfl⟩

/-- C19 (amended): for a chunk with marker `m` and declared word count `w`
(`4 * w < 65536`) whose `4 * w` payload bytes are in the stream, if the iteration passes
both bounds checks and goes on (the chunk is neither the terminator nor an unsupported
marker), and the chunk declares 3 words when it is a length chunk and 2 words when it is a
video or an audio chunk, then after its branch the scan position is the position just
behind the 4-byte chunk header plus `4 * w`, the unread bytes start at the declared chunk
boundary, and the position is within the header extent. -/
theorem chunk_framing (hl : Nat) (st st1 : HeaderState) (m w : Nat) (t : List UInt8)
    (hm : m < 65536) (hw : 4 * w < 65536)
    (hdata : st.pb.data = le16 m ++ le16 w ++ t) (hlen : 4 * w ≤ t.length)
    (hnext : mo_read_header_chunk hl st = .next st1)
    (hlength : m = FORMAT_LENGTH → w = 3) (hvideo : m = FORMAT_VIDEO → w = 2)
    (haudio : is_audio_marker m → w = 2) :
    st1.pb.pos = st.pb.pos + 4 + 4 * w ∧ st1.pb.data = t.drop (4 * w) ∧ st1.pb.pos ≤ hl := by
  obtain ⟨⟨data, p, e, wr⟩, vst, ast⟩ := st
  simp only at hdata
  subst hdata
  have hfl : w * 4 % 2 ^ 16 = 4 * w := by omega
  rw [mo_read_header_chunk_eq] at hnext
  have hq := chunk_format_length_le16 m w hm (by omega) t p e wr vst ast
  simp only [List.append_assoc] at hnext
  simp only [hq.1, hq.2.1, hq.2.2, hfl, avio_tell, avio_rl16_le16 m hm,
    avio_rl16_le16 w (by omega : w < 65536)] at hnext
  clear hq
  dsimp only
  split_ifs at hnext with g1 g2
  have hsw := mo_read_header_switch_next _ _ _ _ hnext
  simp only at hsw
  rcases hsw with ⟨c, hp, hd⟩ | ⟨c, hp, hd⟩ | ⟨c, hp, hd⟩ | ⟨-, -, -, hp, hd⟩
  · have := hlength c
    subst this
    exact ⟨by omega, hd, by omega⟩
  · have := hvideo c
    subst this
    exact ⟨by omega, hd, by omega⟩
  · have := haudio c
    subst this
    exact ⟨by omega, hd, by omega⟩
  · exact ⟨by omega, hd, by omega⟩

theorem chunk_framing_witness :
    (scan_state [9] 24).pb.pos = (scan_state (le16 FORMAT_KEYINDEX ++ le16 3
        ++ [1, 0, 0, 0, 2, 0, 0, 0, 3, 0, 0, 0, 9]) 8).pb.pos + 4 + 4 * 3
    ∧ (scan_state [9] 24).pb.data = [1, 0, 0, 0, 2, 0, 0, 0, 3, 0, 0, 0, 9].drop (4 * 3)
    ∧ (scan_state [9] 24).pb.pos ≤ 100 :=
  chunk_framing 100
    (scan_state (le16 FORMAT_KEYINDEX ++ le16 3 ++ [1, 0, 0, 0, 2, 0, 0, 0, 3, 0, 0, 0, 9]) 8)
    (scan_state [9] 24) FORMAT_KEYINDEX 3 [1, 0, 0, 0, 2, 0, 0, 0, 3, 0, 0, 0, 9]
    (by decide) (by decide) rfl (by decide) (by decide) (by decide) (by decide) (by decide)

/-- C19 as stated fails: a length chunk at position 8 that declares 4 words lies within the
header extent 100 and passes the bounds check, but its branch consumes the fixed 12 bytes:
the scan position afterwards is 24, not `8 + 4 + 4 * 4 = 28`, and the next chunk header is
read from the last declared payload word. -/
theorem length_branch_ignores_word_count :
    chunk_payload_pos (scan_state long_length_chunk 8)
        + chunk_format_length (scan_state long_length_chunk 8) ≤ 100
    ∧ chunk_format_marker (scan_state long_length_chunk 8) = FORMAT_LENGTH
    ∧ chunk_format_length (scan_state long_length_chunk 8) = 4 * 4
    ∧ (∃ st1, mo_read_header_chunk 100 (scan_state long_length_chunk 8) = .next st1
        ∧ st1.pb.pos = 24 ∧ st1.pb.pos ≠ 8 + 4 + 4 * 4
        ∧ st1.pb.data = le32 0 ++ le16 FORMAT_HEADER_DONE ++ le16 0) :=
  ⟨by decide, by decide, by decide,
    ⟨{ pb := { data := le32 0 ++ le16 FORMAT_HEADER_DONE ++ le16 0, pos := 24,
               eof_reached := false, written := [] },
       vst := { avpriv_set_pts_info new_video_stream 1 256 7680 with duration := 100 },
       ast := { new_stream with duration := 100 } },
      by decide, by decide, by decide, by decide⟩⟩

/-- C18 fails: `mo_probe` accepts the buffer `35 43 4F 4D 00 00 00 28 4C 54 ...`, but the
marker `mo_read_header` reads for the first chunk of the same bytes, the little-endian
16-bit value at offset 8, is `0x544C` and not `FORMAT_LENGTH`: the chunk takes the default
branch, which skips its three words and leaves both descriptors untouched, whereas the
length branch would have set time base and durations. -/
theorem probe_and_parser_disagree :
    mo_probe ⟨probe_sample⟩ = AVPROBE_SCORE_EXTENSION + 10
    ∧ chunk_format_marker (mo_read_header_start (demux_open probe_sample)).2 = 0x544C
    ∧ chunk_format_marker (mo_read_header_start (demux_open probe_sample)).2 ≠ FORMAT_LENGTH
    ∧ mo_read_header_chunk (mo_read_header_start (demux_open probe_sample)).1
        (mo_read_header_start (demux_open probe_sample)).2 = .next (scan_state [] 24)
    ∧ mo_read_header_switch FORMAT_LENGTH 12 (scan_state (probe_sample.drop 12) 12)
        ≠ .next (scan_state [] 24) := by
  decide

/-! ### Audio marker table -/

/-- C15: on an audio chunk payload (sample rate word `r`, channel-count word `c`)
`mo_handle_audio` returns 0 for each of the five audio markers and sets the descriptor from
the marker alone: A2 FastAudio mono, A3 FastAudio stereo, AP PCM S16LE stereo, A8 ADPCM IMA
MobiClip mono, A9 ADPCM IMA MobiClip stereo, each with sample rate `r`; payloads that differ
only in the channel-count word give the same descriptor; for any marker that is not one of
the five it returns -1. -/
theorem mo_handle_audio_table (ast : AVStream) (r c c2 : Nat) (t : List UInt8) (p : Nat)
    (e : Bool) (wr : List UInt8) (hr : r < 2 ^ 32)
    (m : Nat) (pb : AVIOContext) (hm : ¬ is_audio_marker m) :
    mo_handle_audio ast (FORMAT_MARKER (Char.toNat 'A') (Char.toNat '2'))
        ⟨le32 r ++ le32 c ++ t, p, e, wr⟩
      = (0, audio_descriptor ast r AV_CODEC_ID_FASTAUDIO AV_CHANNEL_LAYOUT_MONO,
          ⟨t, p + 8, e, wr⟩)
    ∧ mo_handle_audio ast (FORMAT_MARKER (Char.toNat 'A') (Char.toNat '3'))
        ⟨le32 r ++ le32 c ++ t, p, e, wr⟩
      = (0, audio_descriptor ast r AV_CODEC_ID_FASTAUDIO AV_CHANNEL_LAYOUT_STEREO,
          ⟨t, p + 8, e, wr⟩)
    ∧ mo_handle_audio ast (FORMAT_MARKER (Char.toNat 'A') (Char.toNat 'P'))
        ⟨le32 r ++ le32 c ++ t, p, e, wr⟩
      = (0, audio_descriptor ast r AV_CODEC_ID_PCM_S16LE AV_CHANNEL_LAYOUT_STEREO,
          ⟨t, p + 8, e, wr⟩)
    ∧ mo_handle_audio ast (FORMAT_MARKER (Char.toNat 'A') (Char.toNat '8'))
        ⟨le32 r ++ le32 c ++ t, p, e, wr⟩
      = (0, audio_descriptor ast r AV_CODEC_ID_ADPCM_IMA_MOFLEX AV_CHANNEL_LAYOUT_MONO,
          ⟨t, p + 8, e, wr⟩)
    ∧ mo_handle_audio ast (FORMAT_MARKER (Char.toNat 'A') (Char.toNat '9'))
        ⟨le32 r ++ le32 c ++ t, p, e, wr⟩
      = (0, audio_descriptor ast r AV_CODEC_ID_ADPCM_IMA_MOFLEX AV_CHANNEL_LAYOUT_STEREO,
          ⟨t, p + 8, e, wr⟩)
    ∧ (∀ am, is_audio_marker am →
        (mo_handle_audio ast am ⟨le32 r ++ le32 c ++ t, p, e, wr⟩).2.1
          = (mo_handle_audio ast am ⟨le32 r ++ le32 c2 ++ t, p, e, wr⟩).2.1)
    ∧ (mo_handle_audio ast m pb).1 = -1 := by
  have h1 : FORMAT_MARKER (Char.toNat 'A') (Char.toNat '2') = 12865 := by decide
  have h2 : FORMAT_MARKER (Char.toNat 'A') (Char.toNat '3') = 13121 := by decide
  have h3 : FORMAT_MARKER (Char.toNat 'A') (Char.toNat 'P') = 20545 := by decide
  have h4 : FORMAT_MARKER (Char.toNat 'A') (Char.toNat '8') = 14401 := by decide
  have h5 : FORMAT_MARKER (Char.toNat 'A') (Char.toNat '9') = 14657 := by decide
  have hskip : ∀ x, avio_skip ⟨le32 x ++ t, p + 4, e, wr⟩ 4 = ⟨t, p + 8, e, wr⟩ := by
    intro x; simp [avio_skip, le32]
  refine ⟨?_, ?_, ?_, ?_, ?_, ?_, ?_⟩
  · rw [h1]
    simp [mo_handle_audio, audio_descriptor, avio_rl32_le32 r hr, hskip, avpriv_set_pts_info,
      FORMAT_FASTAUDIO_eq]
  · rw [h2]
    simp [mo_handle_audio, audio_descriptor, avio_rl32_le32 r hr, hskip, avpriv_set_pts_info,
      FORMAT_FASTAUDIO_eq, FORMAT_FASTAUDIO_STEREO_eq]
  · rw [h3]
    simp [mo_handle_audio, audio_descriptor, avio_rl32_le32 r hr, hskip, avpriv_set_pts_info,
      FORMAT_FASTAUDIO_eq, FORMAT_FASTAUDIO_STEREO_eq, FORMAT_PCM_eq]
  · rw [h4]
    simp [mo_handle_audio, audio_descriptor, avio_rl32_le32 r hr, hskip, avpriv_set_pts_info,
      FORMAT_FASTAUDIO_eq, FORMAT_FASTAUDIO_STEREO_eq, FORMAT_PCM_eq, FORMAT_ADPCM_eq]
  · rw [h5]
    simp [mo_handle_audio, audio_descriptor, avio_rl32_le32 r hr, hskip, avpriv_set_pts_info,
      FORMAT_FASTAUDIO_eq, FORMAT_FASTAUDIO_STEREO_eq, FORMAT_PCM_eq, FORMAT_ADPCM_eq,
      FORMAT_ADPCM_STEREO_eq]
  · intro am _
    refine (mo_handle_audio_congr ast am _ _ ?_).2
    simp [avio_rl32_le32 r hr]
  · simp only [is_audio_marker, not_or] at hm
    obtain ⟨a1, a2, a3, a4, a5⟩ := hm
    simp only [mo_handle_audio, if_neg a1, if_neg a2, if_neg a3, if_neg a4, if_neg a5]

theorem mo_handle_audio_table_witness :
    (32000 < 2 ^ 32 ∧ ¬ is_audio_marker FORMAT_VIDEO)
    ∧ mo_handle_audio new_stream (FORMAT_MARKER (Char.toNat 'A') (Char.toNat 'P'))
        ⟨le32 32000 ++ le32 1 ++ [7], 204, false, []⟩
      = (0, audio_descriptor new_stream 32000 AV_CODEC_ID_PCM_S16LE AV_CHANNEL_LAYOUT_STEREO,
          ⟨[7], 204 + 8, false, []⟩)
    ∧ (mo_handle_audio new_stream FORMAT_VIDEO ⟨[1, 2, 3], 0, false, []⟩).1 = -1 :=
  have h := mo_handle_audio_table new_stream 32000 1 2 [7] 204 false [] (by decide)
    FORMAT_VIDEO ⟨[1, 2, 3], 0, false, []⟩ (by decide)
  ⟨⟨by decide, by decide⟩, h.2.2.1, h.2.2.2.2.2.2⟩

/-! ### Round trip of the written header with the length field replaced -/

theorem ofNat_mod (v : Nat) : UInt8.ofNat (v % 256) = UInt8.ofNat v := by
  apply UInt8.ext
  simp [UInt8.ofNat]

set_option maxRecDepth 20000 in
theorem replace_expected_header (num nb w h r c L : Nat) :
    replace_length_field (expected_header num nb w h r c) L
      = 77 :: 79 :: 67 :: 53 :: (le32 L ++ written_chunks (num * 256) nb w h r c) := by
  rfl


theorem le32_mod (v : Nat) : le32 (v % 2 ^ 32) = le32 v := by
  have h1 : v % 2 ^ 32 % 256 = v % 256 := by omega
  have h2 : v % 2 ^ 32 / 256 % 256 = v / 256 % 256 := by omega
  have h3 : v % 2 ^ 32 / 65536 % 256 = v / 65536 % 256 := by omega
  have h4 : v % 2 ^ 32 / 16777216 % 256 = v / 16777216 % 256 := by omega
  unfold le32
  rw [← ofNat_mod (v % 2 ^ 32), ← ofNat_mod (v % 2 ^ 32 / 256),
    ← ofNat_mod (v % 2 ^ 32 / 65536), ← ofNat_mod (v % 2 ^ 32 / 16777216), h1, h2, h3, h4,
    ofNat_mod, ofNat_mod, ofNat_mod, ofNat_mod]

theorem written_chunks_mod (d n w h r c : Nat) :
    written_chunks d n w h r c = written_chunks (d % 2 ^ 32) n w h r c := by
  simp only [written_chunks, le32_mod]

theorem written_chunks_length (d n w h r c : Nat) :
    (written_chunks d n w h r c).length = 208 := by
  simp [written_chunks, le16, le32, rsa_key_length]

theorem chunk_rsa (hl w : Nat) (hw : 4 * w < 65536)
    (payload t : List UInt8) (hpay : payload.length = 4 * w)
    (p : Nat) (e : Bool) (wr : List UInt8) (vst ast : AVStream) (hp : p + 4 + 4 * w ≤ hl) :
    mo_read_header_chunk hl
      ⟨⟨le16 FORMAT_RSA ++ (le16 w ++ (payload ++ t)), p, e, wr⟩, vst, ast⟩
    = .next ⟨⟨t, p + (4 + 4 * w), e, wr⟩, vst, ast⟩ := by
  have h1 : ¬ (p > hl) := by omega
  have hfl : w * 4 % 2 ^ 16 = 4 * w := by omega
  have h2 : ¬ (p + 2 + 2 + 4 * w > hl) := by omega
  have hdrop : (payload ++ t).drop (4 * w) = t := by
    rw [← hpay]; exact List.drop_left _ _
  have hm : FORMAT_RSA < 65536 := by decide
  have hw16 : w < 65536 := by omega
  rw [mo_read_header_chunk]
  simp only [avio_tell, avio_rl16_le16 FORMAT_RSA hm, avio_rl16_le16 w hw16, hfl, if_neg h1,
    if_neg h2]
  simp [mo_read_header_switch, FORMAT_RSA_eq, FORMAT_LENGTH_eq, FORMAT_VIDEO_eq, avio_skip,
    hdrop]
  omega

theorem chunk_exhausted (hl m w : Nat) (hm : m < 65536) (hw : w < 65536)
    (t : List UInt8) (p : Nat) (e : Bool) (wr : List UInt8) (vst ast : AVStream)
    (hp : p ≤ hl) (hx : p + 4 + w * 4 % 2 ^ 16 > hl) :
    mo_read_header_chunk hl ⟨⟨le16 m ++ (le16 w ++ t), p, e, wr⟩, vst, ast⟩
      = .exhausted ⟨⟨t, p + 2 + 2, e, wr⟩, vst, ast⟩ := by
  have h1 : ¬ (p > hl) := by omega
  have h2 : p + 2 + 2 + w * 4 % 2 ^ 16 > hl := by omega
  simp only [mo_read_header_chunk, avio_tell, avio_rl16_le16 m hm, avio_rl16_le16 w hw,
    if_neg h1, if_pos h2]

theorem mo_handle_audio_pcm (ast : AVStream) (r c : Nat) (hr : r < 2 ^ 32)
    (t : List UInt8) (p : Nat) (e : Bool) (wr : List UInt8) :
    mo_handle_audio ast FORMAT_PCM ⟨le32 r ++ (le32 c ++ t), p, e, wr⟩
      = (0, audio_descriptor ast r AV_CODEC_ID_PCM_S16LE AV_CHANNEL_LAYOUT_STEREO,
          ⟨t, p + 8, e, wr⟩) := by
  simp [mo_handle_audio, audio_descriptor, avio_rl32_le32 r hr, avio_skip_le32,
    avpriv_set_pts_info, FORMAT_FASTAUDIO_eq, FORMAT_FASTAUDIO_STEREO_eq, FORMAT_PCM_eq]

theorem written_chunks_loop (hl k d n w h r c : Nat) (hd : d < 2 ^ 32) (hn : n < 2 ^ 32)
    (hw : w < 2 ^ 32) (hh : h < 2 ^ 32) (hr : r < 2 ^ 32) (hhl : 216 ≤ hl)
    (e : Bool) (wr : List UInt8) (vst ast : AVStream) :
    mo_read_header_loop (k + 5) hl ⟨⟨written_chunks d n w h r c, 8, e, wr⟩, vst, ast⟩
      = some (0, ⟨⟨[], 216, e, wr⟩,
          { avpriv_set_pts_info vst 1 256 d with
            duration := n,
            codecpar := { vst.codecpar with width := w, height := h } },
          audio_descriptor { ast with duration := n } r AV_CODEC_ID_PCM_S16LE
            AV_CHANNEL_LAYOUT_STEREO⟩) := by
  simp only [written_chunks, mo_read_header_loop]
  rw [chunk_length hl d n 0 hd hn _ 8 e wr _ _ (by omega)]
  simp only []
  rw [chunk_video hl w h hw hh _ (8 + 16) e wr _ _ (by omega)]
  simp only []
  rw [chunk_rsa hl 40 (by decide) rsa_key _ rsa_key_length (8 + 16 + 12) e wr _ _ (by omega)]
  simp only []
  rw [chunk_audio hl FORMAT_PCM r c (by decide) hr _ _ e wr _ _ (by omega)]
  simp only []
  rw [chunk_header_done hl [] _ e wr _ _ (by omega)]
  simp only []
  rw [mo_handle_audio_pcm _ r c hr]
  rfl


theorem written_chunks_loop_short (hl k d n w h r c : Nat) (hd : d < 2 ^ 32)
    (hn : n < 2 ^ 32) (hw : w < 2 ^ 32) (hh : h < 2 ^ 32) (hr : r < 2 ^ 32)
    (hlo : 8 ≤ hl) (hhl : hl < 216) (e : Bool) (wr : List UInt8) (vst ast : AVStream) :
    ∃ st, mo_read_header_loop (k + 5) hl ⟨⟨written_chunks d n w h r c, 8, e, wr⟩, vst, ast⟩
      = some (AVERROR_EOF, st) := by
  have m1 : FORMAT_LENGTH < 65536 := by decide
  have m2 : FORMAT_VIDEO < 65536 := by decide
  have m3 : FORMAT_RSA < 65536 := by decide
  have m4 : FORMAT_PCM < 65536 := by decide
  have m5 : FORMAT_HEADER_DONE < 65536 := by decide
  simp only [written_chunks, mo_read_header_loop]
  by_cases c1 : hl < 24
  · rw [chunk_exhausted hl _ 3 m1 (by decide) _ 8 e wr _ _ (by omega) (by omega)]
    exact ⟨_, rfl⟩
  rw [chunk_length hl d n 0 hd hn _ 8 e wr _ _ (by omega)]
  simp only []
  by_cases c2 : hl < 36
  · rw [chunk_exhausted hl _ 2 m2 (by decide) _ (8 + 16) e wr _ _ (by omega) (by omega)]
    exact ⟨_, rfl⟩
  rw [chunk_video hl w h hw hh _ (8 + 16) e wr _ _ (by omega)]
  simp only []
  by_cases c3 : hl < 200
  · rw [chunk_exhausted hl _ 40 m3 (by decide) _ (8 + 16 + 12) e wr _ _ (by omega) (by omega)]
    exact ⟨_, rfl⟩
  rw [chunk_rsa hl 40 (by decide) rsa_key _ rsa_key_length (8 + 16 + 12) e wr _ _ (by omega)]
  simp only []
  by_cases c4 : hl < 212
  · rw [chunk_exhausted hl _ 2 m4 (by decide) _ _ e wr _ _ (by omega) (by omega)]
    exact ⟨_, rfl⟩
  rw [chunk_audio hl FORMAT_PCM r c (by decide) hr _ _ e wr _ _ (by omega)]
  simp only []
  rw [chunk_exhausted hl _ 0 m5 (by decide) _ _ e wr _ _ (by omega) (by omega)]
  exact ⟨_, rfl⟩

theorem mo_write_header_emitted_eq (s : AVFormatContext MoMuxContext) (v a : AVStream)
    (hs : s.streams = [v, a]) (hacc : (mo_write_header s).1 = 0) :
    mo_write_header_emitted s
      = expected_header v.avg_frame_rate.num v.nb_frames v.codecpar.width v.codecpar.height
          a.codecpar.sample_rate a.codecpar.ch_layout.nb_channels := by
  obtain ⟨v1, a1, hs1, hv, ha⟩ := mo_write_header_accept s hacc
  rw [hs] at hs1
  injection hs1 with e1 e2
  injection e2 with e2 _
  subst e1 e2
  unfold mo_write_header_emitted
  rw [mo_write_header_emits s v a hs hv ha]
  exact List.drop_left _ _

/-- C20: for every configuration `mo_write_header` accepts (streams `v`, `a`, fields
holding 32-bit values, `nb_frames < 2^32`) the 216 emitted bytes, with only the
header-length field replaced by `L`, are parsed by every run of `mo_read_header` of at
least five iterations as follows. For `208 <= L < 2^32 - 8` the result is 0 with two
streams: video width and height as configured, video and audio duration `nb_frames`,
audio sample rate as configured, audio codec PCM S16LE with stereo layout whatever the
configured channel count, and video time base `256 / (avg_frame_rate.num * 256 mod 2^32)`.
For `L < 208` the result is `AVERROR_EOF`. -/
theorem written_header_round_trip (s : AVFormatContext MoMuxContext) (v a : AVStream)
    (L k : Nat) (hs : s.streams = [v, a]) (hacc : (mo_write_header s).1 = 0)
    (hnb : v.nb_frames < 2 ^ 32) (hwidth : v.codecpar.width < 2 ^ 32)
    (hheight : v.codecpar.height < 2 ^ 32) (hrate : a.codecpar.sample_rate < 2 ^ 32) :
    (mo_write_header_emitted s).length = 216
    ∧ (208 ≤ L → L < 2 ^ 32 - 8 →
        ∃ pb vst ast,
          mo_read_header (k + 5) (demux_open (replace_length_field (mo_write_header_emitted s) L))
            = some (0, { demux_open (replace_length_field (mo_write_header_emitted s) L) with
                pb := pb, streams := [vst, ast] })
          ∧ vst.codecpar.width = v.codecpar.width
          ∧ vst.codecpar.height = v.codecpar.height
          ∧ vst.duration = v.nb_frames ∧ ast.duration = v.nb_frames
          ∧ ast.codecpar.sample_rate = a.codecpar.sample_rate
          ∧ ast.codecpar.codec_id = AV_CODEC_ID_PCM_S16LE
          ∧ ast.codecpar.ch_layout = AV_CHANNEL_LAYOUT_STEREO
          ∧ vst.time_base = { num := 256, den := (v.avg_frame_rate.num * 256) % 2 ^ 32 })
    ∧ (L < 208 →
        (mo_read_header (k + 5)
          (demux_open (replace_length_field (mo_write_header_emitted s) L))).map Prod.fst
          = some AVERROR_EOF) := by
  have hem := mo_write_header_emitted_eq s v a hs hacc
  have hd : (v.avg_frame_rate.num * 256) % 2 ^ 32 < 2 ^ 32 := Nat.mod_lt _ (by decide)
  have hform : replace_length_field (mo_write_header_emitted s) L
      = 77 :: 79 :: 67 :: 53 :: (le32 L ++ written_chunks ((v.avg_frame_rate.num * 256) % 2 ^ 32)
          v.nb_frames v.codecpar.width v.codecpar.height a.codecpar.sample_rate
          a.codecpar.ch_layout.nb_channels) := by
    rw [hem, replace_expected_header, ← written_chunks_mod]
  refine ⟨by rw [hem, expected_header_length], ?_, ?_⟩
  · intro h1 h2
    have hstart : mo_read_header_start
        (demux_open (replace_length_field (mo_write_header_emitted s) L))
        = (L + 8, ⟨⟨written_chunks ((v.avg_frame_rate.num * 256) % 2 ^ 32)
          v.nb_frames v.codecpar.width v.codecpar.height a.codecpar.sample_rate
          a.codecpar.ch_layout.nb_channels, 8, false, []⟩, new_video_stream, new_stream⟩) := by
      rw [hform]
      simp only [mo_read_header_start, demux_open]
      rw [mo_read_header_init_le32 _ _ _ _ _ _ L (by omega), Nat.mod_eq_of_lt (by omega)]
    rw [mo_read_header_eq, hstart]
    simp only []
    rw [written_chunks_loop (L + 8) k _ _ _ _ _ _ hd hnb hwidth hheight hrate (by omega)]
    exact ⟨_, _, _, rfl, rfl, rfl, rfl, rfl, rfl, rfl, rfl, rfl⟩
  · intro h1
    have hstart : mo_read_header_start
        (demux_open (replace_length_field (mo_write_header_emitted s) L))
        = (L + 8, ⟨⟨written_chunks ((v.avg_frame_rate.num * 256) % 2 ^ 32)
          v.nb_frames v.codecpar.width v.codecpar.height a.codecpar.sample_rate
          a.codecpar.ch_layout.nb_channels, 8, false, []⟩, new_video_stream, new_stream⟩) := by
      rw [hform]
      simp only [mo_read_header_start, demux_open]
      rw [mo_read_header_init_le32 _ _ _ _ _ _ L (by omega), Nat.mod_eq_of_lt (by omega)]
    rw [mo_read_header_eq, hstart]
    simp only []
    obtain ⟨st, hst⟩ := written_chunks_loop_short (L + 8) k _ _ _ _ _
      a.codecpar.ch_layout.nb_channels hd hnb hwidth hheight hrate (by omega) (by omega)
      false [] new_video_stream new_stream
    rw [hst]
    rfl

set_option maxRecDepth 20000 in
theorem written_header_round_trip_witness :
    ((mobiclip_pcm_config.streams
        = [mk_stream AVMEDIA_TYPE_VIDEO AV_CODEC_ID_MOBICLIP 320 240 0 0 100 30,
           mk_stream AVMEDIA_TYPE_AUDIO AV_CODEC_ID_PCM_S16LE 0 0 32000 2 0 0]
      ∧ (mo_write_header mobiclip_pcm_config).1 = 0)
      ∧ (208 : Nat) ≤ 208 ∧ 208 < 2 ^ 32 - 8 ∧ 207 < 208)
    ∧ (∃ pb vst ast,
        mo_read_header (0 + 5)
            (demux_open (replace_length_field (mo_write_header_emitted mobiclip_pcm_config) 208))
          = some (0, { demux_open
              (replace_length_field (mo_write_header_emitted mobiclip_pcm_config) 208) with
              pb := pb, streams := [vst, ast] })
        ∧ vst.codecpar.width = 320 ∧ vst.codecpar.height = 240
        ∧ vst.duration = 100 ∧ ast.duration = 100
        ∧ ast.codecpar.sample_rate = 32000
        ∧ ast.codecpar.codec_id = AV_CODEC_ID_PCM_S16LE
        ∧ ast.codecpar.ch_layout = AV_CHANNEL_LAYOUT_STEREO
        ∧ vst.time_base = { num := 256, den := (30 * 256) % 2 ^ 32 })
    ∧ (mo_read_header (0 + 5)
        (demux_open (replace_length_field (mo_write_header_emitted mobiclip_pcm_config)
          207))).map Prod.fst = some AVERROR_EOF :=
  ⟨⟨⟨rfl, by decide⟩, by decide, by decide, by decide⟩,
    (written_header_round_trip mobiclip_pcm_config _ _ 208 0 rfl (by decide) (by decide)
      (by decide) (by decide) (by decide)).2.1 (by decide) (by decide),
    (written_header_round_trip mobiclip_pcm_config _ _ 207 0 rfl (by decide) (by decide)
      (by decide) (by decide) (by decide)).2.2 (by decide)⟩

end MO
